import Mathlib

/-!
Verification development for the homebridge-power-lock repository.

The repository contains two implementations of the per-lock state
controller:
* `src/src/index.ts` — the TypeScript `PowerLockAccessory` / `PowerLockPlatform`
  (modelled below in the root `PowerLock` namespace);
* `src/unnamed/part_000` — the legacy JavaScript `PowerLockAccessory`
  (modelled in the `PowerLock.Legacy` namespace).

Side effects (command executions, bus publishes, host characteristic
writes, log lines) are reified as an `Effect` trace accumulated in the
state.  Timers are modelled as optional absolute expiry instants over a
logical clock `now` measured in seconds; an event-loop `step` function
fires a timer only when it is pending and its instant has been reached,
mirroring the single-threaded callback semantics of the source.
External command execution is an oracle `CmdEnv` mapping a command
string to its captured outcome.
-/

namespace PowerLock

/-- Outcome of running an external command: captured stdout and stderr on
success, or the error message when the process fails (non-zero exit or
execution error), mirroring `execAsync` which rejects on failure. -/
inductive CmdResult
  | ok (stdout stderr : String)
  | err (message : String)
deriving DecidableEq

/-- Oracle assigning to each command string the outcome of executing it. -/
def CmdEnv : Type := String → CmdResult

/-- Observable side effects of the controller, in emission order. -/
inductive Effect
  | execCmd (command : String)
  | publish (topic message : String)
  | setCurrentChar (locked : Bool)
  | setTargetChar (locked : Bool)
  | setNameChar (name : String)
  | mqttEnd
  | logDebug (message : String)
  | logInfo (message : String)
  | logError (message : String)
deriving DecidableEq

/-- `mqttSettings` block of a lock configuration (src/src/index.ts lines 49-60). -/
structure MqttSettings where
  mqttBroker : String
  mqttPort : Option Int := none
  mqttUsername : Option String := none
  mqttPassword : Option String := none
  mqttTopicSubscribe : String
  mqttOpenMessage : String
  mqttCloseMessage : String
  mqttTopicPublish : String
  mqttPublishOpenMessage : String
  mqttPublishCloseMessage : String
deriving DecidableEq

/-- `commandSettings` block of a lock configuration (src/src/index.ts lines 62-67). -/
structure CommandSettings where
  openCommand : String
  closeCommand : String
  monitorCommand : String
  monitorInterval : Int
deriving DecidableEq

/-- One lock configuration (src/src/index.ts `LockConfig`).  `mode` is kept
as a string because `validateConfig` has a branch for invalid modes and
`setupMode` treats every unknown mode as dummy. -/
structure LockConfig where
  name : String
  mode : String
  autoLock : Option Bool := none
  autoLockDelay : Option Int := none
  lockDelay : Option Int := none
  unlockDelay : Option Int := none
  logging : Option String := none
  mqttSettings : Option MqttSettings := none
  commandSettings : Option CommandSettings := none
deriving DecidableEq

/-- `this.config.logging || 'normal'` of the logging helpers. -/
def loggingLevel (cfg : LockConfig) : String := cfg.logging.getD "normal"

/-- `logDebug` (src/src/index.ts lines 470-474): emits only at debug verbosity. -/
def logDebugE (cfg : LockConfig) (m : String) : List Effect :=
  if cfg.logging = some "debug" then [Effect.logDebug m] else []

/-- `logInfo` (src/src/index.ts lines 476-480). -/
def logInfoE (cfg : LockConfig) (m : String) : List Effect :=
  if loggingLevel cfg = "debug" ∨ loggingLevel cfg = "normal" then [Effect.logInfo m] else []

/-- `logError` (src/src/index.ts lines 482-486). -/
def logErrorE (cfg : LockConfig) (m : String) : List Effect :=
  if loggingLevel cfg = "debug" ∨ loggingLevel cfg = "normal" ∨ loggingLevel cfg = "minimal"
  then [Effect.logError m] else []

/-- Runtime state of a `PowerLockAccessory` instance.  Timers hold the
absolute second at which their callback becomes due; `none` means not
pending.  `effects` is the trace of emitted side effects. -/
structure AccState where
  isLocked : Bool
  targetState : Bool
  ctxIsLocked : Option Bool
  ctxTargetState : Option Bool
  mqttClient : Bool
  now : Nat
  lockDelayTimeout : Option Nat
  unlockDelayTimeout : Option Nat
  autoLockTimeout : Option Nat
  monitorIntervalHandle : Option Nat
  effects : List Effect
deriving DecidableEq

/-- Append freshly emitted effects to the trace. -/
def emit (s : AccState) (l : List Effect) : AccState :=
  { s with effects := s.effects ++ l }

/-- SECURED / UNSECURED wording used by the log messages. -/
def stateWord (locked : Bool) : String := if locked then "SECURED" else "UNSECURED"

/-- Number of occurrences of one exact effect in a trace. -/
def countEffect (target : Effect) : List Effect → Nat
  | [] => 0
  | e :: rest => (if e = target then 1 else 0) + countEffect target rest

/-- Number of executions of a given command recorded in a trace. -/
def countExec (l : List Effect) (c : String) : Nat :=
  countEffect (Effect.execCmd c) l

/-- The host characteristic writes contained in a trace, in order. -/
def charWrites : List Effect → List Effect :=
  List.filter fun e =>
    match e with
    | Effect.setCurrentChar _ => true
    | Effect.setTargetChar _ => true
    | _ => false

theorem countEffect_append (t : Effect) (a b : List Effect) :
    countEffect t (a ++ b) = countEffect t a + countEffect t b := by
  induction a with
  | nil => simp [countEffect]
  | cons x xs ih => simp [countEffect, ih]; omega

theorem countExec_append (a b : List Effect) (c : String) :
    countExec (a ++ b) c = countExec a c + countExec b c :=
  countEffect_append _ a b

theorem countExec_nil (c : String) : countExec [] c = 0 := rfl

theorem countExec_cons (e : Effect) (l : List Effect) (c : String) :
    countExec (e :: l) c = (if e = Effect.execCmd c then 1 else 0) + countExec l c := rfl

theorem countExec_logDebugE (cfg : LockConfig) (m c : String) :
    countExec (logDebugE cfg m) c = 0 := by
  unfold logDebugE
  split <;> simp [countExec, countEffect]

theorem countExec_logInfoE (cfg : LockConfig) (m c : String) :
    countExec (logInfoE cfg m) c = 0 := by
  unfold logInfoE
  split <;> simp [countExec, countEffect]

theorem countExec_logErrorE (cfg : LockConfig) (m c : String) :
    countExec (logErrorE cfg m) c = 0 := by
  unfold logErrorE
  split <;> simp [countExec, countEffect]

theorem emit_emit (s : AccState) (a b : List Effect) :
    emit (emit s a) b = emit s (a ++ b) := by
  simp [emit]

theorem emit_effects (s : AccState) (a : List Effect) :
    (emit s a).effects = s.effects ++ a := rfl

/-- `executeCommand` (src/src/index.ts lines 370-391): records the process
spawn, logs stdout/stderr on success, logs and swallows the error on
failure; nothing is ever propagated to the caller. -/
def executeCommand (cfg : LockConfig) (env : CmdEnv) (command commandName : String) :
    List Effect :=
  if command = "" then
    logErrorE cfg (commandName ++ " is not defined.")
  else
    Effect.execCmd command ::
      (match env command with
       | CmdResult.ok out errOut =>
           (if out ≠ "" then logDebugE cfg (commandName ++ " output: " ++ out.trim) else [])
             ++ (if errOut ≠ "" then
                   logErrorE cfg (commandName ++ " error output: " ++ errOut.trim)
                 else [])
       | CmdResult.err msg =>
           logErrorE cfg (commandName ++ " failed: " ++ msg))

/-- `this.config.autoLockDelay || 30` — JavaScript falsiness: an absent or
zero delay falls back to 30 seconds. -/
def autoLockDelayEff (cfg : LockConfig) : Int :=
  match cfg.autoLockDelay with
  | some d => if d = 0 then 30 else d
  | none => 30

/-- `updateLockState` (src/src/index.ts lines 393-463): the single place
both state fields are assigned.  Early-returns when the desired value
already equals both fields; otherwise writes both fields, both host
characteristics and the persisted context, publishes in mqtt mode, and
arms the auto-lock timer only for a user-triggered transition to
unlocked. -/
def updateLockState (cfg : LockConfig) (desired triggerAutoLock : Bool) (s : AccState) :
    AccState :=
  if desired = s.isLocked ∧ s.targetState = desired then
    emit s (logDebugE cfg ("Lock already " ++ stateWord desired ++ "."))
  else
    let s1 := { s with
      targetState := desired,
      isLocked := desired,
      ctxIsLocked := some desired,
      ctxTargetState := some desired,
      effects := s.effects ++ [Effect.setTargetChar desired, Effect.setCurrentChar desired]
        ++ logInfoE cfg ("Lock is now " ++ stateWord desired ++ ".") }
    let s2 :=
      match cfg.mqttSettings with
      | some ms =>
          if cfg.mode = "mqtt" ∧ s.mqttClient = true ∧ ms.mqttTopicPublish ≠ "" then
            let message := if desired
              then (if ms.mqttPublishCloseMessage ≠ "" then ms.mqttPublishCloseMessage
                    else "closed")
              else (if ms.mqttPublishOpenMessage ≠ "" then ms.mqttPublishOpenMessage
                    else "opened")
            emit s1 [Effect.publish ms.mqttTopicPublish message]
          else s1
      | none => s1
    if triggerAutoLock = true ∧ cfg.autoLock = some true ∧ desired = false then
      { s2 with
        autoLockTimeout := some (s.now + (autoLockDelayEff cfg).toNat),
        effects := s2.effects ++ logDebugE cfg "Auto-lock armed." }
    else s2

/-- `cfg.lockDelay && cfg.lockDelay > 0` — true iff the delay is present
and strictly positive. -/
def delayActive : Option Int → Bool
  | some d => decide (0 < d)
  | none => false

/-- `setTargetState` (src/src/index.ts lines 319-368): host-initiated
target-state write.  In command mode it either arms the direction delay
timer (without touching the state fields or the opposite timer) or runs
the command and then reconciles; in every other mode it reconciles
immediately.  Note the idempotence check lives in `updateLockState`, so
the command-mode side effects happen before it. -/
def setTargetState (cfg : LockConfig) (env : CmdEnv) (value : Bool) (s : AccState) :
    AccState :=
  let desired := value
  let s0 := emit s (logInfoE cfg ("Setting target state to " ++ stateWord desired ++ "."))
  if cfg.mode = "command" then
    match cfg.commandSettings with
    | none => emit s0 (logErrorE cfg "Command settings missing.")
    | some cs =>
      if desired then
        if delayActive cfg.lockDelay then
          { emit s0 (logDebugE cfg "Locking after delay.") with
            lockDelayTimeout := some (s0.now + (cfg.lockDelay.getD 0).toNat) }
        else
          updateLockState cfg true (cfg.autoLock.getD false)
            (emit s0 (executeCommand cfg env cs.closeCommand "closeCommand"))
      else
        if delayActive cfg.unlockDelay then
          { emit s0 (logDebugE cfg "Unlocking after delay.") with
            unlockDelayTimeout := some (s0.now + (cfg.unlockDelay.getD 0).toNat) }
        else
          updateLockState cfg false (cfg.autoLock.getD false)
            (emit s0 (executeCommand cfg env cs.openCommand "openCommand"))
  else
    updateLockState cfg desired (cfg.autoLock.getD false) s0

/-- The mqtt `message` handler (src/src/index.ts lines 203-214): a message
on the subscribed topic matching the configured open/close literal calls
`updateLockState` with `triggerAutoLock = false`. -/
def onMqttMessage (cfg : LockConfig) (topic message : String) (s : AccState) : AccState :=
  match cfg.mqttSettings with
  | none => s
  | some ms =>
    if topic = ms.mqttTopicSubscribe then
      if message = ms.mqttOpenMessage then
        updateLockState cfg false false (emit s (logDebugE cfg "Received MQTT open message."))
      else if message = ms.mqttCloseMessage then
        updateLockState cfg true false (emit s (logDebugE cfg "Received MQTT close message."))
      else s
    else s

/-- `executeMonitorCommand` (src/src/index.ts lines 264-310): runs the
poll command, maps its trimmed lowercased output to a state through the
recognized-token table, and reconciles with `triggerAutoLock = false`
only when the parsed state differs from the current one. -/
def executeMonitorCommand (cfg : LockConfig) (env : CmdEnv) (s : AccState) : AccState :=
  match cfg.commandSettings with
  | none => emit s (logErrorE cfg "monitorCommand is not defined.")
  | some cs =>
    if cs.monitorCommand = "" then
      emit s (logErrorE cfg "monitorCommand is not defined.")
    else
      match env cs.monitorCommand with
      | CmdResult.err msg =>
          emit s (Effect.execCmd cs.monitorCommand
            :: logErrorE cfg ("monitorCommand failed: " ++ msg))
      | CmdResult.ok out errOut =>
          let outLogs := if out ≠ "" then logDebugE cfg ("monitorCommand output: " ++ out.trim)
            else []
          let errLogs := if errOut ≠ "" then
              logErrorE cfg ("monitorCommand error output: " ++ errOut.trim)
            else []
          let s1 := emit s (Effect.execCmd cs.monitorCommand :: outLogs ++ errLogs)
          let output := out.trim.toLower
          let newState : Option Bool :=
            if output = "open" ∨ output = "unsecured" then some false
            else if output = "closed" ∨ output = "secured" then some true
            else none
          match newState with
          | some b =>
              if b ≠ s.isLocked then
                updateLockState cfg b false
                  (emit s1 (logInfoE cfg ("Monitor detected lock is now " ++ stateWord b ++ ".")))
              else
                emit s1 (logDebugE cfg "No state change detected from monitorCommand.")
          | none =>
              emit s1 (logDebugE cfg "No state change detected from monitorCommand.")

/-- Body of the lock-delay `setTimeout` callback (src/src/index.ts lines
341-344): run `closeCommand`, then reconcile. -/
def fireLockDelayBody (cfg : LockConfig) (env : CmdEnv) (s : AccState) : AccState :=
  match cfg.commandSettings with
  | some cs =>
      updateLockState cfg true (cfg.autoLock.getD false)
        (emit { s with lockDelayTimeout := none }
          (executeCommand cfg env cs.closeCommand "closeCommand"))
  | none => { s with lockDelayTimeout := none }

/-- Body of the unlock-delay `setTimeout` callback (src/src/index.ts lines
355-358). -/
def fireUnlockDelayBody (cfg : LockConfig) (env : CmdEnv) (s : AccState) : AccState :=
  match cfg.commandSettings with
  | some cs =>
      updateLockState cfg false (cfg.autoLock.getD false)
        (emit { s with unlockDelayTimeout := none }
          (executeCommand cfg env cs.openCommand "openCommand"))
  | none => { s with unlockDelayTimeout := none }

/-- Body of the auto-lock `setTimeout` callback (src/src/index.ts lines
456-458): reconcile to locked with `triggerAutoLock = false`; nothing
else — in particular no command execution and no delay handling. -/
def fireAutoLockBody (cfg : LockConfig) (s : AccState) : AccState :=
  updateLockState cfg true false { s with autoLockTimeout := none }

/-- Configured monitor interval in whole seconds, zero when absent. -/
def monitorIntervalOf (cfg : LockConfig) : Nat :=
  match cfg.commandSettings with
  | some cs => cs.monitorInterval.toNat
  | none => 0

/-- Body of one `setInterval` tick of the monitor (src/src/index.ts lines
255-257); the recurring interval re-arms itself. -/
def firePollBody (cfg : LockConfig) (env : CmdEnv) (due : Nat) (s : AccState) : AccState :=
  executeMonitorCommand cfg env
    { s with monitorIntervalHandle := some (due + monitorIntervalOf cfg) }

/-- Events dispatched by the single-threaded event loop. -/
inductive Event
  | advance (dt : Nat)
  | hostSetTarget (desired : Bool)
  | busMessage (topic payload : String)
  | fireLockDelay
  | fireUnlockDelay
  | fireAutoLock
  | firePoll
deriving DecidableEq

/-- One event-loop dispatch.  Timer events fire only when the timer is
pending and due; re-delivering them earlier is a no-op. -/
def step (cfg : LockConfig) (env : CmdEnv) (s : AccState) : Event → AccState
  | Event.advance dt => { s with now := s.now + dt }
  | Event.hostSetTarget d => setTargetState cfg env d s
  | Event.busMessage t p => if s.mqttClient then onMqttMessage cfg t p s else s
  | Event.fireLockDelay =>
      match s.lockDelayTimeout with
      | some t => if t ≤ s.now then fireLockDelayBody cfg env s else s
      | none => s
  | Event.fireUnlockDelay =>
      match s.unlockDelayTimeout with
      | some t => if t ≤ s.now then fireUnlockDelayBody cfg env s else s
      | none => s
  | Event.fireAutoLock =>
      match s.autoLockTimeout with
      | some t => if t ≤ s.now then fireAutoLockBody cfg s else s
      | none => s
  | Event.firePoll =>
      match s.monitorIntervalHandle with
      | some t => if t ≤ s.now then firePollBody cfg env t s else s
      | none => s

/-- Run a list of events through the event loop. -/
def run (cfg : LockConfig) (env : CmdEnv) (s : AccState) (l : List Event) : AccState :=
  l.foldl (step cfg env) s

/-- Total simulated time advanced by an event list. -/
def advTotal : List Event → Nat
  | [] => 0
  | Event.advance dt :: rest => dt + advTotal rest
  | _ :: rest => advTotal rest

/-- Events that carry no external input: time passing and timer firings. -/
def isTimeEvent : Event → Bool
  | Event.advance _ => true
  | Event.fireLockDelay => true
  | Event.fireUnlockDelay => true
  | Event.fireAutoLock => true
  | Event.firePoll => true
  | _ => false

/-- A trace of pure time/timer events ("no further input"). -/
def timeOnly (l : List Event) : Prop := ∀ e ∈ l, isTimeEvent e = true

/-- `setupMode` together with the three mode setups (src/src/index.ts
lines 145-262, 313-316): creates the mqtt client in mqtt mode when the
settings block is present, arms the monitor interval in command mode
when all four command settings are truthy, and falls through to dummy
for any other mode. -/
def setupMode (cfg : LockConfig) (s : AccState) : AccState :=
  if cfg.mode = "mqtt" then
    match cfg.mqttSettings with
    | none => emit s (logErrorE cfg "MQTT settings are missing.")
    | some _ => { s with mqttClient := true }
  else if cfg.mode = "command" then
    match cfg.commandSettings with
    | none => emit s (logErrorE cfg "Command line settings are missing.")
    | some cs =>
      if cs.openCommand = "" ∨ cs.closeCommand = "" ∨ cs.monitorCommand = ""
          ∨ cs.monitorInterval = 0 then
        emit s (logErrorE cfg "Missing command settings.")
      else
        { emit s (logInfoE cfg "Command mode initialized.") with
          monitorIntervalHandle := some (s.now + cs.monitorInterval.toNat) }
  else
    emit s (logInfoE cfg "Running in dummy mode.")

/-- The `PowerLockAccessory` constructor (src/src/index.ts lines 87-143):
reads the persisted context (defaulting both fields to locked), writes
the name and both lock characteristics back to the host from those
values, wires the mode, and logs when auto-lock is enabled. -/
def initAccessory (cfg : LockConfig) (ctxIsLocked ctxTargetState : Option Bool) : AccState :=
  let isL := ctxIsLocked.getD true
  let tgt := ctxTargetState.getD true
  let base : AccState := {
    isLocked := isL
    targetState := tgt
    ctxIsLocked := ctxIsLocked
    ctxTargetState := ctxTargetState
    mqttClient := false
    now := 0
    lockDelayTimeout := none
    unlockDelayTimeout := none
    autoLockTimeout := none
    monitorIntervalHandle := none
    effects := [Effect.setNameChar cfg.name, Effect.setCurrentChar isL,
      Effect.setTargetChar tgt] }
  let s1 := setupMode cfg base
  if cfg.autoLock.getD false then emit s1 (logInfoE cfg "Auto-lock feature enabled.") else s1

/-- JavaScript truthiness of an optional string: present and non-empty. -/
def truthyStr : Option String → Bool
  | some v => decide (v ≠ "")
  | none => false

/-- `validateConfig` (src/src/index.ts lines 591-701), as an `Except`
value: the thrown error message, or success.  The `typeof` checks of the
source are vacuous in this typed embedding; every numeric comparison is
kept. -/
def validateConfig (c : LockConfig) : Except String Unit := do
  if c.mode = "mqtt" then
    match c.mqttSettings with
    | none => throw ("Lock " ++ c.name ++ " is missing mqttSettings in config.")
    | some m =>
      if m.mqttBroker = "" then
        throw ("Lock " ++ c.name ++ " is missing mqttBroker in MQTT settings.")
      else if m.mqttTopicSubscribe = "" then
        throw ("Lock " ++ c.name ++ " is missing mqttTopicSubscribe in MQTT settings.")
      else if m.mqttTopicPublish = "" then
        throw ("Lock " ++ c.name ++ " is missing mqttTopicPublish in MQTT settings.")
      else if (truthyStr m.mqttUsername ∧ ¬ truthyStr m.mqttPassword)
          ∨ (¬ truthyStr m.mqttUsername ∧ truthyStr m.mqttPassword) then
        throw ("Lock " ++ c.name ++ " must provide both mqttUsername and mqttPassword together.")
      else pure ()
  else if c.mode = "command" then
    match c.commandSettings with
    | none => throw ("Lock " ++ c.name ++ " is missing commandSettings in config.")
    | some cs =>
      if cs.openCommand = "" ∨ cs.closeCommand = "" ∨ cs.monitorCommand = ""
          ∨ cs.monitorInterval = 0 then
        throw ("Lock " ++ c.name ++ " is missing required command fields.")
      else if cs.monitorInterval ≤ 0 then
        throw ("Lock " ++ c.name ++ " has invalid monitorInterval.")
      else pure ()
  else if c.mode = "dummy" then
    pure ()
  else
    throw ("Lock " ++ c.name ++ " has invalid mode " ++ c.mode ++ ".")
  match c.lockDelay with
  | some d => if d < 0 then throw ("Lock " ++ c.name ++ " has invalid lockDelay.") else pure ()
  | none => pure ()
  match c.unlockDelay with
  | some d => if d < 0 then throw ("Lock " ++ c.name ++ " has invalid unlockDelay.") else pure ()
  | none => pure ()
  if c.autoLock = some true then
    match c.autoLockDelay with
    | some d =>
        if d ≤ 0 then throw ("Lock " ++ c.name ++ " has invalid autoLockDelay.") else pure ()
    | none => pure ()
  else pure ()
  match c.logging with
  | some lv =>
      if lv = "debug" ∨ lv = "normal" ∨ lv = "minimal" then pure ()
      else throw ("Lock " ++ c.name ++ " has invalid logging.")
  | none => pure ()

/-- Per-lock outcome of a discovery pass. -/
inductive DiscoverOutcome
  | skipped (errMessage : String)
  | registered (name : String)
deriving DecidableEq

/-- The per-lock body of `discoverDevices` (src/src/index.ts lines
551-588): validate inside a try; on a thrown error, log it and
`continue` to the next lock; otherwise set the accessory up. -/
def processLock (c : LockConfig) : DiscoverOutcome :=
  match validateConfig c with
  | Except.error e => DiscoverOutcome.skipped e
  | Except.ok _ => DiscoverOutcome.registered c.name

/-- `discoverDevices` over the configured lock list: each entry is
processed independently of all the others. -/
def discoverDevices (locks : List LockConfig) : List DiscoverOutcome :=
  locks.map processLock

end PowerLock

namespace PowerLock.Legacy

open PowerLock

/-- Instance fields of the legacy accessory after `configure` applied the
JavaScript default fallbacks (src/unnamed/part_000 lines 148-170);
`logging` is the platform-wide level consumed by `logIf`. -/
structure LegacyConfig where
  lockName : String := "Power Lock"
  autoLock : Bool := false
  autoLockDelay : Int := 10
  lockDelay : Int := 0
  unlockDelay : Int := 0
  mqttTopic : String := ""
  mqttMessageOpen : String := "OPEN"
  mqttMessageClosed : String := "CLOSED"
  mqttMessageSendOpen : String := "UNLOCK"
  mqttMessageSendClosed : String := "LOCK"
  cmdPollInterval : Int := 0
  cmdPollCommand : String := ""
  cmdLockCommand : String := ""
  cmdUnlockCommand : String := ""
  logging : String := "normal"
deriving DecidableEq

/-- Numeric log levels of `logIf` (src/unnamed/part_000 lines 87-99);
unknown levels default to 1 (`?? 1`). -/
def levelNum : String → Nat
  | "none" => 0
  | "normal" => 1
  | "debug" => 2
  | _ => 1

/-- `logIf` emits when the required level is at most the configured one. -/
def logIfE (cfg : LegacyConfig) (level m : String) : List Effect :=
  if levelNum level ≤ levelNum cfg.logging then [Effect.logInfo m] else []

/-- Runtime state of a legacy `PowerLockAccessory`.  `mode` lives in the
state because `setupMqtt` / `setupCommandPolling` mutate it when they
degrade to dummy.  `currentState = true` means SECURED. -/
structure LegacyState where
  mode : String
  currentState : Bool
  targetState : Bool
  mqttClient : Bool
  pollIntervalObj : Option Nat
  autoLockTimeout : Option Nat
  lockDelayTimeout : Option Nat
  unlockDelayTimeout : Option Nat
  now : Nat
  effects : List Effect
deriving DecidableEq

/-- Append effects to the legacy trace. -/
def lemit (s : LegacyState) (l : List Effect) : LegacyState :=
  { s with effects := s.effects ++ l }

/-- `updateHomeKitStates` (src/unnamed/part_000 lines 342-346). -/
def updateHomeKitStates (cfg : LegacyConfig) (s : LegacyState) : LegacyState :=
  lemit s (logIfE cfg "debug" "updateHomeKitStates"
    ++ [Effect.setCurrentChar s.currentState, Effect.setTargetChar s.targetState])

/-- `doLock` (src/unnamed/part_000 lines 275-300): publish or run the
lock command depending on the mode, then set both state fields to
SECURED and push them to the host. -/
def doLock (cfg : LegacyConfig) (env : CmdEnv) (s : LegacyState) : LegacyState :=
  let s := lemit s (logIfE cfg "debug" "doLock triggered.")
  let s := if s.mode = "mqtt" ∧ s.mqttClient = true ∧ cfg.mqttMessageSendClosed ≠ "" then
      lemit s [Effect.publish cfg.mqttTopic cfg.mqttMessageSendClosed]
    else s
  let s := if s.mode = "cmd" ∧ cfg.cmdLockCommand ≠ "" then
      lemit s (Effect.execCmd cfg.cmdLockCommand ::
        (match env cfg.cmdLockCommand with
         | CmdResult.err m => logIfE cfg "normal" ("Error running lock command: " ++ m)
         | CmdResult.ok _ _ => []))
    else s
  updateHomeKitStates cfg { s with currentState := true, targetState := true }

/-- `doUnlock` (src/unnamed/part_000 lines 302-340): mirror image of
`doLock`, plus re-arming the auto-lock timer when autoLock is enabled
(cancelling a pending one first). -/
def doUnlock (cfg : LegacyConfig) (env : CmdEnv) (s : LegacyState) : LegacyState :=
  let s := lemit s (logIfE cfg "debug" "doUnlock triggered.")
  let s := if s.mode = "mqtt" ∧ s.mqttClient = true ∧ cfg.mqttMessageSendOpen ≠ "" then
      lemit s [Effect.publish cfg.mqttTopic cfg.mqttMessageSendOpen]
    else s
  let s := if s.mode = "cmd" ∧ cfg.cmdUnlockCommand ≠ "" then
      lemit s (Effect.execCmd cfg.cmdUnlockCommand ::
        (match env cfg.cmdUnlockCommand with
         | CmdResult.err m => logIfE cfg "normal" ("Error running unlock command: " ++ m)
         | CmdResult.ok _ _ => []))
    else s
  let s := updateHomeKitStates cfg { s with currentState := false, targetState := false }
  if cfg.autoLock then
    { lemit s (logIfE cfg "debug" "Starting auto-lock timer.") with
      autoLockTimeout := some (s.now + cfg.autoLockDelay.toNat) }
  else s

/-- `clearLockUnlockDelays` (src/unnamed/part_000 lines 264-273). -/
def clearLockUnlockDelays (s : LegacyState) : LegacyState :=
  { s with lockDelayTimeout := none, unlockDelayTimeout := none }

/-- `handleTargetStateSet` (src/unnamed/part_000 lines 233-262): records
the target, then for a positive direction delay clears both delay timers
and arms the direction timer; otherwise acts immediately. -/
def handleTargetStateSet (cfg : LegacyConfig) (env : CmdEnv) (value : Bool)
    (s : LegacyState) : LegacyState :=
  let s := lemit { s with targetState := value } (logIfE cfg "debug" "handleTargetStateSet")
  if value then
    if 0 < cfg.lockDelay then
      { clearLockUnlockDelays s with
        lockDelayTimeout := some (s.now + cfg.lockDelay.toNat) }
    else doLock cfg env s
  else
    if 0 < cfg.unlockDelay then
      { clearLockUnlockDelays s with
        unlockDelayTimeout := some (s.now + cfg.unlockDelay.toNat) }
    else doUnlock cfg env s

/-- `cleanup` (src/unnamed/part_000 lines 187-219): null out all four
timers, then end the mqtt client inside a try whose catch ignores the
error.  `endOutcome` is the outcome of `mqttClient.end(true)`; both
branches behave identically because the error is swallowed. -/
def cleanup (endOutcome : Except String Unit) (s : LegacyState) : LegacyState :=
  let s := { s with
    pollIntervalObj := none
    autoLockTimeout := none
    lockDelayTimeout := none
    unlockDelayTimeout := none }
  if s.mqttClient then
    match endOutcome with
    | Except.ok _ => { lemit s [Effect.mqttEnd] with mqttClient := false }
    | Except.error _ => { lemit s [Effect.mqttEnd] with mqttClient := false }
  else s

/-- Body of one poll tick (src/unnamed/part_000 lines 417-439): run the
poll command; on error only log; otherwise compare the trimmed uppercase
output against the recognized literals, update the fields on a match,
and always push the (possibly unchanged) states to the host. -/
def pollBody (cfg : LegacyConfig) (env : CmdEnv) (s : LegacyState) : LegacyState :=
  match env cfg.cmdPollCommand with
  | CmdResult.err m =>
      lemit s (Effect.execCmd cfg.cmdPollCommand ::
        logIfE cfg "normal" ("Error polling lock state: " ++ m))
  | CmdResult.ok out _ =>
      let trimmed := out.trim.toUpper
      let s := lemit s [Effect.execCmd cfg.cmdPollCommand]
      let s :=
        if trimmed = cfg.mqttMessageOpen.toUpper ∨ trimmed = "OPEN" then
          { s with currentState := false, targetState := false }
        else if trimmed = cfg.mqttMessageClosed.toUpper ∨ trimmed = "CLOSED" then
          { s with currentState := true, targetState := true }
        else s
      updateHomeKitStates cfg s

/-- Timer events of the legacy accessory. -/
inductive LegacyEvent
  | advance (dt : Nat)
  | fireLockDelay
  | fireUnlockDelay
  | fireAutoLock
  | firePoll
deriving DecidableEq

/-- Legacy event-loop dispatch; each timer fires only when pending and
due, and the fired `setTimeout` is consumed.  The auto-lock callback
(src/unnamed/part_000 lines 334-338) sets the target to SECURED and runs
`doLock`. -/
def lstep (cfg : LegacyConfig) (env : CmdEnv) (s : LegacyState) : LegacyEvent → LegacyState
  | LegacyEvent.advance dt => { s with now := s.now + dt }
  | LegacyEvent.fireLockDelay =>
      match s.lockDelayTimeout with
      | some t => if t ≤ s.now then doLock cfg env { s with lockDelayTimeout := none } else s
      | none => s
  | LegacyEvent.fireUnlockDelay =>
      match s.unlockDelayTimeout with
      | some t =>
          if t ≤ s.now then doUnlock cfg env { s with unlockDelayTimeout := none } else s
      | none => s
  | LegacyEvent.fireAutoLock =>
      match s.autoLockTimeout with
      | some t =>
          if t ≤ s.now then
            doLock cfg env
              (lemit { s with autoLockTimeout := none, targetState := true }
                (logIfE cfg "debug" "Auto-lock timer triggered."))
          else s
      | none => s
  | LegacyEvent.firePoll =>
      match s.pollIntervalObj with
      | some t =>
          if t ≤ s.now then
            pollBody cfg env { s with pollIntervalObj := some (t + cfg.cmdPollInterval.toNat) }
          else s
      | none => s

/-- Run a list of legacy events. -/
def lrun (cfg : LegacyConfig) (env : CmdEnv) (s : LegacyState) (l : List LegacyEvent) :
    LegacyState :=
  l.foldl (lstep cfg env) s

/-- Total simulated time advanced by a legacy event list. -/
def ladvTotal : List LegacyEvent → Nat
  | [] => 0
  | LegacyEvent.advance dt :: rest => dt + ladvTotal rest
  | _ :: rest => ladvTotal rest

theorem legacyState_now_congr (s : LegacyState) (a b : Nat) (h : a = b) :
    ({ s with now := a } : LegacyState) = { s with now := b } := by rw [h]

/-- A legacy accessory with no pending timer does nothing but watch the
clock: no callback can fire, no effect is emitted, no field changes. -/
theorem lrun_inert (cfg : LegacyConfig) (env : CmdEnv) :
    ∀ (l : List LegacyEvent) (s : LegacyState),
    s.pollIntervalObj = none → s.autoLockTimeout = none →
    s.lockDelayTimeout = none → s.unlockDelayTimeout = none →
    lrun cfg env s l = { s with now := s.now + ladvTotal l } := by
  intro l
  induction l with
  | nil => intro s _ _ _ _; simp [lrun, ladvTotal]
  | cons e rest ih =>
      intro s hP hA hL hU
      cases e with
      | advance dt =>
          have h2 := ih { s with now := s.now + dt } hP hA hL hU
          unfold lrun at h2 ⊢
          rw [List.foldl_cons]
          rw [show lstep cfg env s (LegacyEvent.advance dt) = { s with now := s.now + dt }
            from rfl]
          rw [h2]
          exact legacyState_now_congr s _ _
            (by
              show s.now + dt + ladvTotal rest
                = s.now + ladvTotal (LegacyEvent.advance dt :: rest)
              show s.now + dt + ladvTotal rest = s.now + (dt + ladvTotal rest)
              omega)
      | fireLockDelay =>
          have hnof : lstep cfg env s LegacyEvent.fireLockDelay = s := by
            unfold lstep
            rw [hL]
          have h2 := ih s hP hA hL hU
          unfold lrun at h2 ⊢
          rw [List.foldl_cons, hnof, h2]
          rfl
      | fireUnlockDelay =>
          have hnof : lstep cfg env s LegacyEvent.fireUnlockDelay = s := by
            unfold lstep
            rw [hU]
          have h2 := ih s hP hA hL hU
          unfold lrun at h2 ⊢
          rw [List.foldl_cons, hnof, h2]
          rfl
      | fireAutoLock =>
          have hnof : lstep cfg env s LegacyEvent.fireAutoLock = s := by
            unfold lstep
            rw [hA]
          have h2 := ih s hP hA hL hU
          unfold lrun at h2 ⊢
          rw [List.foldl_cons, hnof, h2]
          rfl
      | firePoll =>
          have hnof : lstep cfg env s LegacyEvent.firePoll = s := by
            unfold lstep
            rw [hP]
          have h2 := ih s hP hA hL hU
          unfold lrun at h2 ⊢
          rw [List.foldl_cons, hnof, h2]
          rfl

theorem countEffect_logIfE_exec (cfg : LegacyConfig) (lv m c : String) :
    countEffect (Effect.execCmd c) (logIfE cfg lv m) = 0 := by
  unfold logIfE
  split <;> simp [countEffect]

theorem countEffect_logIfE_pub (cfg : LegacyConfig) (lv m a b : String) :
    countEffect (Effect.publish a b) (logIfE cfg lv m) = 0 := by
  unfold logIfE
  split <;> simp [countEffect]

/-- With auto-lock disabled and distinct lock/unlock side-effect payloads,
`doUnlock` leaves the lock-delay, auto-lock and poll timers untouched and
adds no lock-direction side effect to the trace. -/
theorem doUnlock_preserves (cfg : LegacyConfig) (env : CmdEnv) (s : LegacyState)
    (hauto : cfg.autoLock = false)
    (hdc : cfg.cmdUnlockCommand ≠ cfg.cmdLockCommand)
    (hdm : cfg.mqttMessageSendOpen ≠ cfg.mqttMessageSendClosed) :
    (doUnlock cfg env s).lockDelayTimeout = s.lockDelayTimeout
    ∧ (doUnlock cfg env s).autoLockTimeout = s.autoLockTimeout
    ∧ (doUnlock cfg env s).pollIntervalObj = s.pollIntervalObj
    ∧ countEffect (Effect.execCmd cfg.cmdLockCommand) (doUnlock cfg env s).effects
        = countEffect (Effect.execCmd cfg.cmdLockCommand) s.effects
    ∧ countEffect (Effect.publish cfg.mqttTopic cfg.mqttMessageSendClosed)
        (doUnlock cfg env s).effects
        = countEffect (Effect.publish cfg.mqttTopic cfg.mqttMessageSendClosed) s.effects := by
  unfold doUnlock updateHomeKitStates lemit
  simp only [hauto]
  repeat' split
  all_goals simp_all [countEffect_append, countEffect, countEffect_logIfE_exec,
    countEffect_logIfE_pub]

/-- Starting from a state with no pending lock-delay, auto-lock or poll
timer, no trace of timer events can ever produce the lock-direction side
effect (command execution or close publish); only the pending unlock
timer can fire. -/
theorem lrun_no_lock_side_effect (cfg : LegacyConfig) (env : CmdEnv)
    (hauto : cfg.autoLock = false)
    (hdc : cfg.cmdUnlockCommand ≠ cfg.cmdLockCommand)
    (hdm : cfg.mqttMessageSendOpen ≠ cfg.mqttMessageSendClosed) :
    ∀ (l : List LegacyEvent) (s : LegacyState),
    s.lockDelayTimeout = none → s.autoLockTimeout = none → s.pollIntervalObj = none →
    (lrun cfg env s l).lockDelayTimeout = none
    ∧ (lrun cfg env s l).autoLockTimeout = none
    ∧ (lrun cfg env s l).pollIntervalObj = none
    ∧ countEffect (Effect.execCmd cfg.cmdLockCommand) (lrun cfg env s l).effects
        = countEffect (Effect.execCmd cfg.cmdLockCommand) s.effects
    ∧ countEffect (Effect.publish cfg.mqttTopic cfg.mqttMessageSendClosed)
        (lrun cfg env s l).effects
        = countEffect (Effect.publish cfg.mqttTopic cfg.mqttMessageSendClosed) s.effects := by
  intro l
  induction l with
  | nil => intro s hL hA hP; exact ⟨hL, hA, hP, rfl, rfl⟩
  | cons e rest ih =>
      intro s hL hA hP
      have hstep : (lstep cfg env s e).lockDelayTimeout = none
          ∧ (lstep cfg env s e).autoLockTimeout = none
          ∧ (lstep cfg env s e).pollIntervalObj = none
          ∧ countEffect (Effect.execCmd cfg.cmdLockCommand) (lstep cfg env s e).effects
              = countEffect (Effect.execCmd cfg.cmdLockCommand) s.effects
          ∧ countEffect (Effect.publish cfg.mqttTopic cfg.mqttMessageSendClosed)
              (lstep cfg env s e).effects
              = countEffect (Effect.publish cfg.mqttTopic cfg.mqttMessageSendClosed)
                  s.effects := by
        cases e with
        | advance dt => exact ⟨hL, hA, hP, rfl, rfl⟩
        | fireLockDelay =>
            unfold lstep
            rw [hL]
            exact ⟨hL, hA, hP, rfl, rfl⟩
        | fireAutoLock =>
            unfold lstep
            rw [hA]
            exact ⟨hL, hA, hP, rfl, rfl⟩
        | firePoll =>
            unfold lstep
            rw [hP]
            exact ⟨hL, hA, hP, rfl, rfl⟩
        | fireUnlockDelay =>
            cases hc : s.unlockDelayTimeout with
            | none =>
                have he : lstep cfg env s LegacyEvent.fireUnlockDelay = s := by
                  show (match s.unlockDelayTimeout with
                        | some u =>
                            if u ≤ s.now then
                              doUnlock cfg env { s with unlockDelayTimeout := none }
                            else s
                        | none => s) = s
                  rw [hc]
                rw [he]
                exact ⟨hL, hA, hP, rfl, rfl⟩
            | some t =>
                have he : lstep cfg env s LegacyEvent.fireUnlockDelay
                    = (if t ≤ s.now then
                        doUnlock cfg env { s with unlockDelayTimeout := none }
                      else s) := by
                  show (match s.unlockDelayTimeout with
                        | some u =>
                            if u ≤ s.now then
                              doUnlock cfg env { s with unlockDelayTimeout := none }
                            else s
                        | none => s) = _
                  rw [hc]
                rw [he]
                by_cases ht : t ≤ s.now
                · rw [if_pos ht]
                  have := doUnlock_preserves cfg env
                    { s with unlockDelayTimeout := none } hauto hdc hdm
                  exact ⟨by rw [this.1]; exact hL, by rw [this.2.1]; exact hA,
                    by rw [this.2.2.1]; exact hP, this.2.2.2.1, this.2.2.2.2⟩
                · rw [if_neg ht]
                  exact ⟨hL, hA, hP, rfl, rfl⟩
      have hrest := ih (lstep cfg env s e) hstep.1 hstep.2.1 hstep.2.2.1
      have hfold : lrun cfg env s (e :: rest) = lrun cfg env (lstep cfg env s e) rest := rfl
      rw [hfold]
      exact ⟨hrest.1, hrest.2.1, hrest.2.2.1,
        by rw [hrest.2.2.2.1, hstep.2.2.2.1],
        by rw [hrest.2.2.2.2, hstep.2.2.2.2]⟩

end PowerLock.Legacy

namespace PowerLock

/-- `updateLockState` never records a command execution: its only effects
are characteristic writes, a publish and log lines. -/
theorem updateLockState_countExec (cfg : LockConfig) (d t : Bool) (s : AccState) (c : String) :
    countExec (updateLockState cfg d t s).effects c = countExec s.effects c := by
  unfold updateLockState
  repeat' split
  all_goals simp [emit, countExec_append, countExec_cons, countExec_nil, countExec_logDebugE,
    countExec_logInfoE, countExec_logErrorE]

/-- A non-empty command is recorded exactly once by `executeCommand`. -/
theorem countExec_executeCommand_self (cfg : LockConfig) (env : CmdEnv) (cmd nm : String)
    (h : cmd ≠ "") :
    countExec (executeCommand cfg env cmd nm) cmd = 1 := by
  unfold executeCommand
  rw [if_neg h]
  cases env cmd with
  | ok out errOut =>
      repeat' split
      all_goals simp [countExec_cons, countExec_append, countExec_nil, countExec_logDebugE,
        countExec_logErrorE]
  | err msg =>
      simp [countExec_cons, countExec_logErrorE]

/-- A timer that is not yet due at a given instant. -/
def dueAfter (o : Option Nat) (t : Nat) : Prop := ∀ u, o = some u → t < u

theorem accState_now_congr (s : AccState) (a b : Nat) (h : a = b) :
    ({ s with now := a } : AccState) = { s with now := b } := by rw [h]

/-- With no external input and every timer either unarmed or due after the
end of the trace, the event loop only lets time pass. -/
theorem run_quiet (cfg : LockConfig) (env : CmdEnv) : ∀ (l : List Event) (s : AccState),
    timeOnly l →
    dueAfter s.lockDelayTimeout (s.now + advTotal l) →
    dueAfter s.unlockDelayTimeout (s.now + advTotal l) →
    dueAfter s.autoLockTimeout (s.now + advTotal l) →
    dueAfter s.monitorIntervalHandle (s.now + advTotal l) →
    run cfg env s l = { s with now := s.now + advTotal l } := by
  intro l
  induction l with
  | nil => intro s _ _ _ _ _; simp [run, advTotal]
  | cons e rest ih =>
      intro s hl hL hU hA hP
      have hrest : timeOnly rest := fun x hx => hl x (List.mem_cons_of_mem _ hx)
      cases e with
      | advance dt =>
          have hadv : advTotal (Event.advance dt :: rest) = dt + advTotal rest := rfl
          rw [hadv] at hL hU hA hP
          have heq : s.now + (dt + advTotal rest) = (s.now + dt) + advTotal rest := by omega
          rw [heq] at hL hU hA hP
          have h2 := ih { s with now := s.now + dt } hrest hL hU hA hP
          unfold run at h2 ⊢
          rw [List.foldl_cons]
          rw [show step cfg env s (Event.advance dt) = { s with now := s.now + dt } from rfl]
          rw [h2]
          exact accState_now_congr s _ _
            (by
              show s.now + dt + advTotal rest = s.now + advTotal (Event.advance dt :: rest)
              rw [hadv]
              omega)
      | hostSetTarget d => exact absurd (hl _ (List.mem_cons_self _ _)) (by simp [isTimeEvent])
      | busMessage t p => exact absurd (hl _ (List.mem_cons_self _ _)) (by simp [isTimeEvent])
      | fireLockDelay =>
          have hnof : step cfg env s Event.fireLockDelay = s := by
            unfold step
            cases hc : s.lockDelayTimeout with
            | none => rfl
            | some u =>
                have := hL u hc
                have hlt : ¬ (u ≤ s.now) := by omega
                simp [hlt]
          have hadv : advTotal (Event.fireLockDelay :: rest) = advTotal rest := rfl
          rw [hadv] at hL hU hA hP
          have h2 := ih s hrest hL hU hA hP
          unfold run at h2 ⊢
          rw [List.foldl_cons, hnof, h2]
          exact accState_now_congr s _ _ (by rw [hadv])
      | fireUnlockDelay =>
          have hnof : step cfg env s Event.fireUnlockDelay = s := by
            unfold step
            cases hc : s.unlockDelayTimeout with
            | none => rfl
            | some u =>
                have := hU u hc
                have hlt : ¬ (u ≤ s.now) := by omega
                simp [hlt]
          have hadv : advTotal (Event.fireUnlockDelay :: rest) = advTotal rest := rfl
          rw [hadv] at hL hU hA hP
          have h2 := ih s hrest hL hU hA hP
          unfold run at h2 ⊢
          rw [List.foldl_cons, hnof, h2]
          exact accState_now_congr s _ _ (by rw [hadv])
      | fireAutoLock =>
          have hnof : step cfg env s Event.fireAutoLock = s := by
            unfold step
            cases hc : s.autoLockTimeout with
            | none => rfl
            | some u =>
                have := hA u hc
                have hlt : ¬ (u ≤ s.now) := by omega
                simp [hlt]
          have hadv : advTotal (Event.fireAutoLock :: rest) = advTotal rest := rfl
          rw [hadv] at hL hU hA hP
          have h2 := ih s hrest hL hU hA hP
          unfold run at h2 ⊢
          rw [List.foldl_cons, hnof, h2]
          exact accState_now_congr s _ _ (by rw [hadv])
      | firePoll =>
          have hnof : step cfg env s Event.firePoll = s := by
            unfold step
            cases hc : s.monitorIntervalHandle with
            | none => rfl
            | some u =>
                have := hP u hc
                have hlt : ¬ (u ≤ s.now) := by omega
                simp [hlt]
          have hadv : advTotal (Event.firePoll :: rest) = advTotal rest := rfl
          rw [hadv] at hL hU hA hP
          have h2 := ih s hrest hL hU hA hP
          unfold run at h2 ⊢
          rw [List.foldl_cons, hnof, h2]
          exact accState_now_congr s _ _ (by rw [hadv])

end PowerLock

namespace PowerLock

/-- Environment in which every command succeeds with empty output. -/
def testEnvOk : CmdEnv := fun _ => CmdResult.ok "" ""

/-- Environment in which every command fails. -/
def testEnvFail : CmdEnv := fun _ => CmdResult.err "Command failed: exit 1"

/-- Command settings used by the concrete witnesses. -/
def testCommandSettings : CommandSettings :=
  { openCommand := "ocmd", closeCommand := "ccmd", monitorCommand := "mcmd",
    monitorInterval := 60 }

/-- A command-mode lock with no delays. -/
def testCfgCommand : LockConfig :=
  { name := "garage", mode := "command", commandSettings := some testCommandSettings }

/-- A command-mode lock with lockDelay 5 and unlockDelay 3. -/
def testCfgCommandDelays : LockConfig :=
  { testCfgCommand with lockDelay := some 5, unlockDelay := some 3 }

/-- A dummy-mode lock with auto-lock enabled after 10 seconds. -/
def testCfgDummyAuto : LockConfig :=
  { name := "door", mode := "dummy", autoLock := some true, autoLockDelay := some 10 }

/-- A fully locked idle controller state. -/
def testLockedState : AccState :=
  { isLocked := true, targetState := true, ctxIsLocked := some true,
    ctxTargetState := some true, mqttClient := false, now := 0,
    lockDelayTimeout := none, unlockDelayTimeout := none, autoLockTimeout := none,
    monitorIntervalHandle := none, effects := [] }

/-- A fully unlocked idle controller state. -/
def testUnlockedState : AccState :=
  { testLockedState with
    isLocked := false
    targetState := false
    ctxIsLocked := some false
    ctxTargetState := some false }

theorem updateLockState_fields_eq (cfg : LockConfig) (d t : Bool) (s : AccState) :
    (updateLockState cfg d t s).isLocked = (updateLockState cfg d t s).targetState := by
  unfold updateLockState
  split
  · rename_i h
    show s.isLocked = s.targetState
    rw [← h.1, h.2]
  · repeat' split
    all_goals rfl

theorem setTargetState_fields_eq (cfg : LockConfig) (env : CmdEnv) (d : Bool) (s : AccState)
    (h : s.isLocked = s.targetState) :
    (setTargetState cfg env d s).isLocked = (setTargetState cfg env d s).targetState := by
  unfold setTargetState
  dsimp only
  repeat' split
  all_goals first
    | exact updateLockState_fields_eq cfg _ _ _
    | exact h

theorem onMqttMessage_fields_eq (cfg : LockConfig) (topic msg : String) (s : AccState)
    (h : s.isLocked = s.targetState) :
    (onMqttMessage cfg topic msg s).isLocked = (onMqttMessage cfg topic msg s).targetState := by
  unfold onMqttMessage
  repeat' split
  all_goals first
    | exact updateLockState_fields_eq cfg _ _ _
    | exact h

theorem executeMonitorCommand_fields_eq (cfg : LockConfig) (env : CmdEnv) (s : AccState)
    (h : s.isLocked = s.targetState) :
    (executeMonitorCommand cfg env s).isLocked
      = (executeMonitorCommand cfg env s).targetState := by
  unfold executeMonitorCommand
  dsimp only
  repeat' split
  all_goals first
    | exact updateLockState_fields_eq cfg _ _ _
    | exact h

theorem fireLockDelayBody_fields_eq (cfg : LockConfig) (env : CmdEnv) (s : AccState)
    (h : s.isLocked = s.targetState) :
    (fireLockDelayBody cfg env s).isLocked = (fireLockDelayBody cfg env s).targetState := by
  unfold fireLockDelayBody
  split
  · exact updateLockState_fields_eq cfg _ _ _
  · exact h

theorem fireUnlockDelayBody_fields_eq (cfg : LockConfig) (env : CmdEnv) (s : AccState)
    (h : s.isLocked = s.targetState) :
    (fireUnlockDelayBody cfg env s).isLocked = (fireUnlockDelayBody cfg env s).targetState := by
  unfold fireUnlockDelayBody
  split
  · exact updateLockState_fields_eq cfg _ _ _
  · exact h

theorem step_fields_eq (cfg : LockConfig) (env : CmdEnv) (e : Event) (s : AccState)
    (h : s.isLocked = s.targetState) :
    (step cfg env s e).isLocked = (step cfg env s e).targetState := by
  cases e with
  | advance dt => exact h
  | hostSetTarget d => exact setTargetState_fields_eq cfg env d s h
  | busMessage t p =>
      show (if s.mqttClient then onMqttMessage cfg t p s else s).isLocked
        = (if s.mqttClient then onMqttMessage cfg t p s else s).targetState
      split
      · exact onMqttMessage_fields_eq cfg t p s h
      · exact h
  | fireLockDelay =>
      cases hc : s.lockDelayTimeout with
      | none =>
          have he : step cfg env s Event.fireLockDelay = s := by
            show (match s.lockDelayTimeout with
                  | some v => if v ≤ s.now then fireLockDelayBody cfg env s else s
                  | none => s) = s
            rw [hc]
          rw [he]
          exact h
      | some u =>
          have he : step cfg env s Event.fireLockDelay
              = (if u ≤ s.now then fireLockDelayBody cfg env s else s) := by
            show (match s.lockDelayTimeout with
                  | some v => if v ≤ s.now then fireLockDelayBody cfg env s else s
                  | none => s) = _
            rw [hc]
          rw [he]
          split
          · exact fireLockDelayBody_fields_eq cfg env s h
          · exact h
  | fireUnlockDelay =>
      cases hc : s.unlockDelayTimeout with
      | none =>
          have he : step cfg env s Event.fireUnlockDelay = s := by
            show (match s.unlockDelayTimeout with
                  | some v => if v ≤ s.now then fireUnlockDelayBody cfg env s else s
                  | none => s) = s
            rw [hc]
          rw [he]
          exact h
      | some u =>
          have he : step cfg env s Event.fireUnlockDelay
              = (if u ≤ s.now then fireUnlockDelayBody cfg env s else s) := by
            show (match s.unlockDelayTimeout with
                  | some v => if v ≤ s.now then fireUnlockDelayBody cfg env s else s
                  | none => s) = _
            rw [hc]
          rw [he]
          split
          · exact fireUnlockDelayBody_fields_eq cfg env s h
          · exact h
  | fireAutoLock =>
      cases hc : s.autoLockTimeout with
      | none =>
          have he : step cfg env s Event.fireAutoLock = s := by
            show (match s.autoLockTimeout with
                  | some v => if v ≤ s.now then fireAutoLockBody cfg s else s
                  | none => s) = s
            rw [hc]
          rw [he]
          exact h
      | some u =>
          have he : step cfg env s Event.fireAutoLock
              = (if u ≤ s.now then fireAutoLockBody cfg s else s) := by
            show (match s.autoLockTimeout with
                  | some v => if v ≤ s.now then fireAutoLockBody cfg s else s
                  | none => s) = _
            rw [hc]
          rw [he]
          split
          · exact updateLockState_fields_eq cfg _ _ _
          · exact h
  | firePoll =>
      cases hc : s.monitorIntervalHandle with
      | none =>
          have he : step cfg env s Event.firePoll = s := by
            show (match s.monitorIntervalHandle with
                  | some v => if v ≤ s.now then firePollBody cfg env v s else s
                  | none => s) = s
            rw [hc]
          rw [he]
          exact h
      | some u =>
          have he : step cfg env s Event.firePoll
              = (if u ≤ s.now then firePollBody cfg env u s else s) := by
            show (match s.monitorIntervalHandle with
                  | some v => if v ≤ s.now then firePollBody cfg env v s else s
                  | none => s) = _
            rw [hc]
          rw [he]
          split
          · exact executeMonitorCommand_fields_eq cfg env _ h
          · exact h

end PowerLock

namespace PowerLock

/-- C5: an externally observed state change — an incoming bus message
matching the configured open/close literal (`onMqttMessage`), or a poll
result (`executeMonitorCommand`) — always reaches `updateLockState` with
`triggerAutoLock = false`, and a reconciliation with
`triggerAutoLock = false` never arms (nor clears) the auto-lock timer,
in every mode, for every observed value and every state. -/
theorem C5_external_observation_never_arms_autoLock (cfg : LockConfig) (env : CmdEnv) :
    (∀ d s, (updateLockState cfg d false s).autoLockTimeout = s.autoLockTimeout)
    ∧ (∀ topic msg s, (onMqttMessage cfg topic msg s).autoLockTimeout = s.autoLockTimeout)
    ∧ (∀ s, (executeMonitorCommand cfg env s).autoLockTimeout = s.autoLockTimeout) := by
  have h1 : ∀ d s, (updateLockState cfg d false s).autoLockTimeout = s.autoLockTimeout := by
    intro d s
    unfold updateLockState
    dsimp only
    repeat' split
    all_goals simp_all [emit]
  refine ⟨h1, ?_, ?_⟩
  · intro topic msg s
    unfold onMqttMessage
    repeat' split
    all_goals first
      | exact h1 _ _
      | rfl
  · intro s
    unfold executeMonitorCommand
    dsimp only
    repeat' split
    all_goals first
      | exact h1 _ _
      | rfl

/-- C10: `updateLockState` — the only place the TypeScript implementation
assigns `isLocked` or `targetState` outside the constructor — always
leaves the two fields equal (it either early-returns, which requires all
three values to coincide, or assigns both the same value in the same
step), and consequently every event-loop `step` preserves
`isLocked = targetState`: the controller never exposes a state whose
target differs from the current state, even while a lock/unlock delay
timer is pending. -/
theorem C10_isLocked_targetState_coupled (cfg : LockConfig) (env : CmdEnv) :
    (∀ d t s, (updateLockState cfg d t s).isLocked = (updateLockState cfg d t s).targetState)
    ∧ (∀ e s, s.isLocked = s.targetState →
        (step cfg env s e).isLocked = (step cfg env s e).targetState) :=
  ⟨fun d t s => updateLockState_fields_eq cfg d t s,
   fun e s h => step_fields_eq cfg env e s h⟩

/-- Witness for C10 at a concrete input: a host unlock request in command
mode on a locked controller preserves the coupling. -/
theorem C10_isLocked_targetState_coupled_witness :
    (step testCfgCommandDelays testEnvOk testLockedState
        (Event.hostSetTarget false)).isLocked
      = (step testCfgCommandDelays testEnvOk testLockedState
          (Event.hostSetTarget false)).targetState :=
  (C10_isLocked_targetState_coupled testCfgCommandDelays testEnvOk).2
    (Event.hostSetTarget false) testLockedState rfl

end PowerLock

namespace PowerLock

theorem charWrites_append (a b : List Effect) :
    charWrites (a ++ b) = charWrites a ++ charWrites b := by
  simp [charWrites, List.filter_append]

theorem charWrites_logInfoE (cfg : LockConfig) (m : String) :
    charWrites (logInfoE cfg m) = [] := by
  unfold logInfoE charWrites
  split <;> rfl

theorem charWrites_logErrorE (cfg : LockConfig) (m : String) :
    charWrites (logErrorE cfg m) = [] := by
  unfold logErrorE charWrites
  split <;> rfl

theorem charWrites_logDebugE (cfg : LockConfig) (m : String) :
    charWrites (logDebugE cfg m) = [] := by
  unfold logDebugE charWrites
  split <;> rfl

/-- Mode setup never touches the state fields and never writes a lock
characteristic. -/
theorem setupMode_fields (cfg : LockConfig) (s : AccState) :
    (setupMode cfg s).isLocked = s.isLocked
    ∧ (setupMode cfg s).targetState = s.targetState
    ∧ charWrites (setupMode cfg s).effects = charWrites s.effects := by
  unfold setupMode
  repeat' split
  all_goals simp [emit, charWrites_append, charWrites_logInfoE, charWrites_logErrorE]

/-- Construction from an arbitrary persisted context: the state fields are
the persisted values (defaulting to locked), and the only lock
characteristic writes are the current state followed by the target
state, straight from those fields. -/
theorem initAccessory_spec (cfg : LockConfig) (ci ct : Option Bool) :
    (initAccessory cfg ci ct).isLocked = ci.getD true
    ∧ (initAccessory cfg ci ct).targetState = ct.getD true
    ∧ charWrites (initAccessory cfg ci ct).effects
        = [Effect.setCurrentChar (ci.getD true), Effect.setTargetChar (ct.getD true)] := by
  unfold initAccessory
  dsimp only
  have hsm := setupMode_fields cfg
    { isLocked := ci.getD true
      targetState := ct.getD true
      ctxIsLocked := ci
      ctxTargetState := ct
      mqttClient := false
      now := 0
      lockDelayTimeout := none
      unlockDelayTimeout := none
      autoLockTimeout := none
      monitorIntervalHandle := none
      effects := [Effect.setNameChar cfg.name, Effect.setCurrentChar (ci.getD true),
        Effect.setTargetChar (ct.getD true)] }
  split
  · refine ⟨?_, ?_, ?_⟩
    · rw [show ∀ (x : AccState) (l : List Effect), (emit x l).isLocked = x.isLocked
        from fun _ _ => rfl]
      exact hsm.1
    · rw [show ∀ (x : AccState) (l : List Effect), (emit x l).targetState = x.targetState
        from fun _ _ => rfl]
      exact hsm.2.1
    · rw [show ∀ (x : AccState) (l : List Effect), (emit x l).effects = x.effects ++ l
        from fun _ _ => rfl]
      rw [charWrites_append, hsm.2.2, charWrites_logInfoE]
      rfl
  · exact ⟨hsm.1, hsm.2.1, by rw [hsm.2.2]; rfl⟩

/-- C8: a controller constructed from a host handle whose persisted state
is `isLocked = false, targetState = false` reports exactly that state
back through the host characteristic writes, unmodified, before any
trigger; when no persisted state exists, both fields default to locked
and are reported as such. -/
theorem C8_construction_round_trip (cfg : LockConfig) :
    ((initAccessory cfg (some false) (some false)).isLocked = false
      ∧ (initAccessory cfg (some false) (some false)).targetState = false
      ∧ charWrites (initAccessory cfg (some false) (some false)).effects
          = [Effect.setCurrentChar false, Effect.setTargetChar false])
    ∧ ((initAccessory cfg none none).isLocked = true
      ∧ (initAccessory cfg none none).targetState = true
      ∧ charWrites (initAccessory cfg none none).effects
          = [Effect.setCurrentChar true, Effect.setTargetChar true]) :=
  ⟨initAccessory_spec cfg (some false) (some false), initAccessory_spec cfg none none⟩

/-- C9: a configuration-validation failure for one lock produces a
skipped outcome carrying the logged error for exactly that lock and
leaves the processing of every other configured lock unchanged — the
per-lock outcomes are computed independently, and a valid lock is always
set up no matter what surrounds it. -/
theorem C9_validation_failure_skips_only_that_lock (xs ys : List LockConfig)
    (c : LockConfig) (e : String) (h : validateConfig c = Except.error e) :
    discoverDevices (xs ++ c :: ys)
      = discoverDevices xs ++ DiscoverOutcome.skipped e :: discoverDevices ys
    ∧ (∀ c₂, validateConfig c₂ = Except.ok () →
        processLock c₂ = DiscoverOutcome.registered c₂.name) := by
  constructor
  · simp [discoverDevices, processLock, h]
  · intro c₂ h₂
    simp [processLock, h₂]

/-- Witness for C9: an mqtt lock without settings is skipped with its
error message while the dummy locks on both sides are still set up. -/
theorem C9_validation_failure_skips_only_that_lock_witness :
    validateConfig { name := "bad", mode := "mqtt" }
      = Except.error "Lock bad is missing mqttSettings in config."
    ∧ discoverDevices [{ name := "ok1", mode := "dummy" },
        { name := "bad", mode := "mqtt" }, { name := "ok2", mode := "dummy" }]
      = [DiscoverOutcome.registered "ok1",
        DiscoverOutcome.skipped "Lock bad is missing mqttSettings in config.",
        DiscoverOutcome.registered "ok2"] := by
  refine ⟨by rfl, ?_⟩
  have := C9_validation_failure_skips_only_that_lock
    [{ name := "ok1", mode := "dummy" }] [{ name := "ok2", mode := "dummy" }]
    { name := "bad", mode := "mqtt" }
    "Lock bad is missing mqttSettings in config." (by rfl)
  exact this.1

end PowerLock

namespace PowerLock

/-- C6: in command mode, a lock or unlock command that fails (non-zero
exit or execution error, `CmdResult.err`) during a user-requested
transition still results in the virtual state transitioning — both
fields are set to the requested value — and the host being notified
through both characteristic writes; the failure is only logged (the
logError line appears in the trace) and `executeCommand` never
propagates it. -/
theorem C6_command_failure_still_transitions (cfg : LockConfig) (env : CmdEnv)
    (cs : CommandSettings) (v : Bool) (s : AccState) (msg : String)
    (hmode : cfg.mode = "command")
    (hcs : cfg.commandSettings = some cs)
    (hlog : cfg.logging = none)
    (hdelay : delayActive (if v then cfg.lockDelay else cfg.unlockDelay) = false)
    (hcmd : (if v then cs.closeCommand else cs.openCommand) ≠ "")
    (henv : env (if v then cs.closeCommand else cs.openCommand) = CmdResult.err msg)
    (hchange : ¬ (v = s.isLocked ∧ s.targetState = v)) :
    (setTargetState cfg env v s).isLocked = v
    ∧ (setTargetState cfg env v s).targetState = v
    ∧ Effect.setCurrentChar v ∈ (setTargetState cfg env v s).effects
    ∧ Effect.setTargetChar v ∈ (setTargetState cfg env v s).effects
    ∧ Effect.logError ((if v then "closeCommand" else "openCommand") ++ " failed: " ++ msg)
        ∈ (setTargetState cfg env v s).effects := by
  cases v with
  | true =>
      simp at hdelay hcmd henv
      have he : setTargetState cfg env true s
          = updateLockState cfg true (cfg.autoLock.getD false)
              (emit (emit s (logInfoE cfg "Setting target state to SECURED."))
                (executeCommand cfg env cs.closeCommand "closeCommand")) := by
        unfold setTargetState
        simp [hmode, hcs, hdelay, stateWord, emit_emit]
      rw [he]
      unfold updateLockState
      rw [if_neg (by simpa [emit] using hchange)]
      dsimp only
      repeat' split
      all_goals first
        | (simp [emit, executeCommand, hcmd, henv, logErrorE, logInfoE, logDebugE,
            loggingLevel, hlog]
           done)
        | (exfalso; simp_all)
  | false =>
      simp at hdelay hcmd henv
      have he : setTargetState cfg env false s
          = updateLockState cfg false (cfg.autoLock.getD false)
              (emit (emit s (logInfoE cfg "Setting target state to UNSECURED."))
                (executeCommand cfg env cs.openCommand "openCommand")) := by
        unfold setTargetState
        simp [hmode, hcs, hdelay, stateWord, emit_emit]
      rw [he]
      unfold updateLockState
      rw [if_neg (by simpa [emit] using hchange)]
      dsimp only
      repeat' split
      all_goals first
        | (simp [emit, executeCommand, hcmd, henv, logErrorE, logInfoE, logDebugE,
            loggingLevel, hlog]
           done)
        | (exfalso; simp_all)

/-- Witness for C6: a failing close command on an unlocked controller in
command mode still locks the virtual state and notifies the host. -/
theorem C6_command_failure_still_transitions_witness :
    (setTargetState testCfgCommand testEnvFail true testUnlockedState).isLocked = true
    ∧ (setTargetState testCfgCommand testEnvFail true testUnlockedState).targetState = true
    ∧ Effect.setCurrentChar true
        ∈ (setTargetState testCfgCommand testEnvFail true testUnlockedState).effects
    ∧ Effect.setTargetChar true
        ∈ (setTargetState testCfgCommand testEnvFail true testUnlockedState).effects
    ∧ Effect.logError ("closeCommand failed: Command failed: exit 1")
        ∈ (setTargetState testCfgCommand testEnvFail true testUnlockedState).effects := by
  have := C6_command_failure_still_transitions testCfgCommand testEnvFail
    testCommandSettings true testUnlockedState "Command failed: exit 1"
    rfl rfl rfl (by decide) (by decide) rfl (by decide)
  simpa using this

end PowerLock

namespace PowerLock

/-- C1 (counterexample): the claim says `requestTargetState(x)` with
`isLocked == targetLocked == x` performs no side effect in every mode;
but in command mode with zero delay the close command is executed even
though the controller is already locked, because `setTargetState` runs
the command before the idempotence check in `updateLockState`. -/
theorem C1_counterexample :
    testLockedState.isLocked = true
    ∧ testLockedState.targetState = true
    ∧ Effect.execCmd "ccmd"
        ∈ (setTargetState testCfgCommand testEnvOk true testLockedState).effects := by
  decide

/-- C1 (amended): when `isLocked == targetLocked == x` already,
`requestTargetState(x)` never changes the state fields, the persisted
context, the timers beyond the direction delay timer, or the host
characteristics, never publishes, and never arms the auto-lock timer; in
mqtt and dummy modes it is a pure no-op apart from log lines, but in
command mode it still executes the direction-x command (zero delay) or
still arms the direction-x delay timer (positive delay), because the
idempotence check sits in `updateLockState`, after the command-mode side
effects. -/
theorem C1_amended_idempotent_request (cfg : LockConfig) (env : CmdEnv) (x : Bool)
    (s : AccState) (hL : s.isLocked = x) (hT : s.targetState = x) :
    (cfg.mode ≠ "command" →
      setTargetState cfg env x s
        = emit s (logInfoE cfg ("Setting target state to " ++ stateWord x ++ ".")
            ++ logDebugE cfg ("Lock already " ++ stateWord x ++ ".")))
    ∧ (cfg.mode = "command" → cfg.commandSettings = none →
      setTargetState cfg env x s
        = emit s (logInfoE cfg ("Setting target state to " ++ stateWord x ++ ".")
            ++ logErrorE cfg "Command settings missing."))
    ∧ (∀ cs, cfg.mode = "command" → cfg.commandSettings = some cs →
        ((x = true → delayActive cfg.lockDelay = false →
          setTargetState cfg env x s
            = emit s (logInfoE cfg ("Setting target state to " ++ stateWord x ++ ".")
                ++ executeCommand cfg env cs.closeCommand "closeCommand"
                ++ logDebugE cfg ("Lock already " ++ stateWord x ++ ".")))
        ∧ (x = true → delayActive cfg.lockDelay = true →
          setTargetState cfg env x s
            = { emit s (logInfoE cfg ("Setting target state to " ++ stateWord x ++ ".")
                  ++ logDebugE cfg "Locking after delay.") with
                lockDelayTimeout := some (s.now + (cfg.lockDelay.getD 0).toNat) })
        ∧ (x = false → delayActive cfg.unlockDelay = false →
          setTargetState cfg env x s
            = emit s (logInfoE cfg ("Setting target state to " ++ stateWord x ++ ".")
                ++ executeCommand cfg env cs.openCommand "openCommand"
                ++ logDebugE cfg ("Lock already " ++ stateWord x ++ ".")))
        ∧ (x = false → delayActive cfg.unlockDelay = true →
          setTargetState cfg env x s
            = { emit s (logInfoE cfg ("Setting target state to " ++ stateWord x ++ ".")
                  ++ logDebugE cfg "Unlocking after delay.") with
                unlockDelayTimeout := some (s.now + (cfg.unlockDelay.getD 0).toNat) }))) := by
  refine ⟨?_, ?_, ?_⟩
  · intro hm
    unfold setTargetState updateLockState
    rw [if_neg hm]
    simp [emit, hL, hT]
  · intro hm hnone
    unfold setTargetState
    rw [if_pos hm, hnone]
    simp [emit]
  · intro cs hm hsome
    refine ⟨?_, ?_, ?_, ?_⟩
    all_goals intro hx hd
    all_goals subst hx
    all_goals unfold setTargetState updateLockState
    all_goals rw [if_pos hm, hsome]
    all_goals simp [hd, emit, hL, hT]

/-- Witness for C1 (amended) at a concrete input: a redundant unlock
request on an unlocked dummy-mode lock reduces to log output only. -/
theorem C1_amended_idempotent_request_witness :
    setTargetState testCfgDummyAuto testEnvOk false testUnlockedState
      = emit testUnlockedState
          (logInfoE testCfgDummyAuto ("Setting target state to " ++ stateWord false ++ ".")
            ++ logDebugE testCfgDummyAuto ("Lock already " ++ stateWord false ++ ".")) :=
  (C1_amended_idempotent_request testCfgDummyAuto testEnvOk false testUnlockedState
    rfl rfl).1 (by decide)

end PowerLock

namespace PowerLock

/-- Whatever the starting state, `updateLockState` ends with both fields
equal to the desired value (the early return requires they already are). -/
theorem updateLockState_sets (cfg : LockConfig) (d t : Bool) (s : AccState) :
    (updateLockState cfg d t s).isLocked = d
    ∧ (updateLockState cfg d t s).targetState = d := by
  unfold updateLockState
  split
  · rename_i h
    exact ⟨h.1.symm, h.2⟩
  · dsimp only
    repeat' split
    all_goals exact ⟨rfl, rfl⟩

/-- The configured delay for a direction: `lockDelay` when locking,
`unlockDelay` when unlocking. -/
def delayOf (cfg : LockConfig) (d : Bool) : Option Int :=
  if d then cfg.lockDelay else cfg.unlockDelay

/-- The delay timer owned by a direction. -/
def delayTimerOf (d : Bool) (s : AccState) : Option Nat :=
  if d then s.lockDelayTimeout else s.unlockDelayTimeout

/-- The command run for a direction: `closeCommand` when locking,
`openCommand` when unlocking. -/
def cmdOf (cs : CommandSettings) (d : Bool) : String :=
  if d then cs.closeCommand else cs.openCommand

/-- The expiry event of a direction delay timer. -/
def fireOf (d : Bool) : Event :=
  if d then Event.fireLockDelay else Event.fireUnlockDelay

/-- C2 (counterexample): the claim says that with a positive lock delay a
lock request immediately sets `targetLocked` and echoes it to the host;
in the TypeScript implementation `setTargetState` only arms the timer —
`targetState` stays false and no characteristic is written until expiry. -/
theorem C2_counterexample :
    testUnlockedState.isLocked = false
    ∧ testUnlockedState.targetState = false
    ∧ delayActive testCfgCommandDelays.lockDelay = true
    ∧ (setTargetState testCfgCommandDelays testEnvOk true testUnlockedState).targetState
        = false
    ∧ charWrites (setTargetState testCfgCommandDelays testEnvOk
        true testUnlockedState).effects = [] := by
  decide

end PowerLock

namespace PowerLock

theorem run_cons (cfg : LockConfig) (env : CmdEnv) (s : AccState) (e : Event)
    (rest : List Event) :
    run cfg env s (e :: rest) = run cfg env (step cfg env s e) rest := rfl

theorem run_nil (cfg : LockConfig) (env : CmdEnv) (s : AccState) :
    run cfg env s [] = s := rfl

theorem step_advance (cfg : LockConfig) (env : CmdEnv) (s : AccState) (dt : Nat) :
    step cfg env s (Event.advance dt) = { s with now := s.now + dt } := rfl

/-- A due lock-delay timer fires its callback. -/
theorem step_fire_lock_due (cfg : LockConfig) (env : CmdEnv) (s3 : AccState) (T : Nat)
    (h3 : s3.lockDelayTimeout = some T) (hT : T ≤ s3.now) :
    step cfg env s3 Event.fireLockDelay = fireLockDelayBody cfg env s3 := by
  show (match s3.lockDelayTimeout with
        | some v => if v ≤ s3.now then fireLockDelayBody cfg env s3 else s3
        | none => s3) = _
  rw [h3]
  exact if_pos hT

/-- A due unlock-delay timer fires its callback. -/
theorem step_fire_unlock_due (cfg : LockConfig) (env : CmdEnv) (s3 : AccState) (T : Nat)
    (h3 : s3.unlockDelayTimeout = some T) (hT : T ≤ s3.now) :
    step cfg env s3 Event.fireUnlockDelay = fireUnlockDelayBody cfg env s3 := by
  show (match s3.unlockDelayTimeout with
        | some v => if v ≤ s3.now then fireUnlockDelayBody cfg env s3 else s3
        | none => s3) = _
  rw [h3]
  exact if_pos hT

/-- A due auto-lock timer fires its callback. -/
theorem step_fire_autolock_due (cfg : LockConfig) (env : CmdEnv) (s3 : AccState) (T : Nat)
    (h3 : s3.autoLockTimeout = some T) (hT : T ≤ s3.now) :
    step cfg env s3 Event.fireAutoLock = fireAutoLockBody cfg s3 := by
  show (match s3.autoLockTimeout with
        | some v => if v ≤ s3.now then fireAutoLockBody cfg s3 else s3
        | none => s3) = _
  rw [h3]
  exact if_pos hT

end PowerLock

namespace PowerLock

/-- Behaviour of a controller whose only pending timer is a lock-delay
timer due in `T` seconds: nothing happens before the delay elapses, and
at expiry the close command runs and the controller reconciles. -/
theorem armed_lock_behaviour (cfg : LockConfig) (env : CmdEnv) (cs : CommandSettings)
    (sA : AccState) (T : Nat)
    (hcs : cfg.commandSettings = some cs)
    (hL : sA.lockDelayTimeout = some (sA.now + T))
    (hU : sA.unlockDelayTimeout = none)
    (hA : sA.autoLockTimeout = none)
    (hP : sA.monitorIntervalHandle = none) :
    (∀ l, timeOnly l → advTotal l < T →
        run cfg env sA l = { sA with now := sA.now + advTotal l })
    ∧ run cfg env sA [Event.advance T, Event.fireLockDelay]
        = updateLockState cfg true (cfg.autoLock.getD false)
            (emit { sA with lockDelayTimeout := none, now := sA.now + T }
              (executeCommand cfg env cs.closeCommand "closeCommand")) := by
  constructor
  · intro l hl hlt
    refine run_quiet cfg env l sA hl ?_ ?_ ?_ ?_
    · intro u hu
      rw [hL] at hu
      have huv : sA.now + T = u := by simpa using hu
      omega
    · intro u hu
      rw [hU] at hu
      cases hu
    · intro u hu
      rw [hA] at hu
      cases hu
    · intro u hu
      rw [hP] at hu
      cases hu
  · rw [run_cons, step_advance, run_cons, run_nil]
    rw [step_fire_lock_due cfg env _ (sA.now + T)
      (by rw [show ({ sA with now := sA.now + T } : AccState).lockDelayTimeout
            = sA.lockDelayTimeout from rfl, hL])
      le_rfl]
    unfold fireLockDelayBody
    rw [hcs]

/-- Mirror image of `armed_lock_behaviour` for the unlock direction. -/
theorem armed_unlock_behaviour (cfg : LockConfig) (env : CmdEnv) (cs : CommandSettings)
    (sA : AccState) (T : Nat)
    (hcs : cfg.commandSettings = some cs)
    (hU : sA.unlockDelayTimeout = some (sA.now + T))
    (hL : sA.lockDelayTimeout = none)
    (hA : sA.autoLockTimeout = none)
    (hP : sA.monitorIntervalHandle = none) :
    (∀ l, timeOnly l → advTotal l < T →
        run cfg env sA l = { sA with now := sA.now + advTotal l })
    ∧ run cfg env sA [Event.advance T, Event.fireUnlockDelay]
        = updateLockState cfg false (cfg.autoLock.getD false)
            (emit { sA with unlockDelayTimeout := none, now := sA.now + T }
              (executeCommand cfg env cs.openCommand "openCommand")) := by
  constructor
  · intro l hl hlt
    refine run_quiet cfg env l sA hl ?_ ?_ ?_ ?_
    · intro u hu
      rw [hL] at hu
      cases hu
    · intro u hu
      rw [hU] at hu
      have huv : sA.now + T = u := by simpa using hu
      omega
    · intro u hu
      rw [hA] at hu
      cases hu
    · intro u hu
      rw [hP] at hu
      cases hu
  · rw [run_cons, step_advance, run_cons, run_nil]
    rw [step_fire_unlock_due cfg env _ (sA.now + T)
      (by rw [show ({ sA with now := sA.now + T } : AccState).unlockDelayTimeout
            = sA.unlockDelayTimeout from rfl, hU])
      le_rfl]
    unfold fireUnlockDelayBody
    rw [hcs]

end PowerLock

namespace PowerLock

/-- C2 (amended): in command mode, when `requestTargetState(d)` is called
with a positive configured delay for direction d and the controller in
the opposite state, nothing is echoed immediately — both `isLocked` and
`targetState` keep their old value and no characteristic is written —
and the direction delay timer is armed for the configured duration; with
no further input, the state and the command-execution count stay
unchanged while less than the delay has elapsed; once the delay elapses
and the timer fires, both fields become d and the direction-d command
has executed exactly once.  (In mqtt and dummy modes `setTargetState`
never consults the delays at all.) -/
theorem C2_amended_delayed_transition (cfg : LockConfig) (env : CmdEnv)
    (cs : CommandSettings) (d : Bool) (L : Int) (s : AccState)
    (hmode : cfg.mode = "command")
    (hcs : cfg.commandSettings = some cs)
    (hdel : delayOf cfg d = some L)
    (hpos : 0 < L)
    (hcmd : cmdOf cs d ≠ "")
    (hisL : s.isLocked = !d)
    (htgt : s.targetState = !d)
    (hLn : s.lockDelayTimeout = none)
    (hUn : s.unlockDelayTimeout = none)
    (hAn : s.autoLockTimeout = none)
    (hPn : s.monitorIntervalHandle = none) :
    (setTargetState cfg env d s).isLocked = !d
    ∧ (setTargetState cfg env d s).targetState = !d
    ∧ delayTimerOf d (setTargetState cfg env d s) = some (s.now + L.toNat)
    ∧ delayTimerOf (!d) (setTargetState cfg env d s) = none
    ∧ countExec (setTargetState cfg env d s).effects (cmdOf cs d)
        = countExec s.effects (cmdOf cs d)
    ∧ (∀ l, timeOnly l → advTotal l < L.toNat →
        (run cfg env (setTargetState cfg env d s) l).isLocked = !d
        ∧ (run cfg env (setTargetState cfg env d s) l).targetState = !d
        ∧ countExec (run cfg env (setTargetState cfg env d s) l).effects (cmdOf cs d)
            = countExec s.effects (cmdOf cs d))
    ∧ ((run cfg env (setTargetState cfg env d s)
          [Event.advance L.toNat, fireOf d]).isLocked = d
      ∧ (run cfg env (setTargetState cfg env d s)
          [Event.advance L.toNat, fireOf d]).targetState = d
      ∧ countExec (run cfg env (setTargetState cfg env d s)
            [Event.advance L.toNat, fireOf d]).effects (cmdOf cs d)
          = countExec s.effects (cmdOf cs d) + 1) := by
  cases d with
  | true =>
      simp only [show cmdOf cs true = cs.closeCommand from rfl,
        show fireOf true = Event.fireLockDelay from rfl,
        show (!true) = false from rfl,
        show ∀ X, delayTimerOf true X = X.lockDelayTimeout from fun _ => rfl,
        show ∀ X, delayTimerOf false X = X.unlockDelayTimeout from fun _ => rfl] at *
      have hld : cfg.lockDelay = some L := hdel
      have hda : delayActive cfg.lockDelay = true := by
        rw [hld]
        exact decide_eq_true hpos
      have he : setTargetState cfg env true s
          = { emit s (logInfoE cfg "Setting target state to SECURED."
                ++ logDebugE cfg "Locking after delay.") with
              lockDelayTimeout := some (s.now + L.toNat) } := by
        unfold setTargetState
        rw [if_pos hmode, hcs]
        dsimp only
        rw [hda]
        simp [emit, hld, stateWord]
      rw [he]
      have harm := armed_lock_behaviour cfg env cs
        { emit s (logInfoE cfg "Setting target state to SECURED."
            ++ logDebugE cfg "Locking after delay.") with
          lockDelayTimeout := some (s.now + L.toNat) } L.toNat
        hcs rfl hUn hAn hPn
      refine ⟨hisL, htgt, rfl, hUn, ?_, ?_, ?_⟩
      · simp [emit, countExec_append, countExec_logInfoE, countExec_logDebugE]
      · intro l hl hlt
        rw [harm.1 l hl hlt]
        refine ⟨hisL, htgt, ?_⟩
        simp [emit, countExec_append, countExec_logInfoE, countExec_logDebugE]
      · rw [harm.2]
        refine ⟨(updateLockState_sets cfg true _ _).1,
          (updateLockState_sets cfg true _ _).2, ?_⟩
        rw [updateLockState_countExec]
        rw [show ∀ (x : AccState) (el : List Effect), (emit x el).effects = x.effects ++ el
          from fun _ _ => rfl]
        rw [countExec_append,
          countExec_executeCommand_self cfg env cs.closeCommand "closeCommand" hcmd]
        simp [emit, countExec_append, countExec_logInfoE, countExec_logDebugE]
  | false =>
      simp only [show cmdOf cs false = cs.openCommand from rfl,
        show fireOf false = Event.fireUnlockDelay from rfl,
        show (!false) = true from rfl,
        show ∀ X, delayTimerOf true X = X.lockDelayTimeout from fun _ => rfl,
        show ∀ X, delayTimerOf false X = X.unlockDelayTimeout from fun _ => rfl] at *
      have hld : cfg.unlockDelay = some L := hdel
      have hda : delayActive cfg.unlockDelay = true := by
        rw [hld]
        exact decide_eq_true hpos
      have he : setTargetState cfg env false s
          = { emit s (logInfoE cfg "Setting target state to UNSECURED."
                ++ logDebugE cfg "Unlocking after delay.") with
              unlockDelayTimeout := some (s.now + L.toNat) } := by
        unfold setTargetState
        rw [if_pos hmode, hcs]
        dsimp only
        rw [hda]
        simp [emit, hld, stateWord]
      rw [he]
      have harm := armed_unlock_behaviour cfg env cs
        { emit s (logInfoE cfg "Setting target state to UNSECURED."
            ++ logDebugE cfg "Unlocking after delay.") with
          unlockDelayTimeout := some (s.now + L.toNat) } L.toNat
        hcs rfl hLn hAn hPn
      refine ⟨hisL, htgt, rfl, hLn, ?_, ?_, ?_⟩
      · simp [emit, countExec_append, countExec_logInfoE, countExec_logDebugE]
      · intro l hl hlt
        rw [harm.1 l hl hlt]
        refine ⟨hisL, htgt, ?_⟩
        simp [emit, countExec_append, countExec_logInfoE, countExec_logDebugE]
      · rw [harm.2]
        refine ⟨(updateLockState_sets cfg false _ _).1,
          (updateLockState_sets cfg false _ _).2, ?_⟩
        rw [updateLockState_countExec]
        rw [show ∀ (x : AccState) (el : List Effect), (emit x el).effects = x.effects ++ el
          from fun _ _ => rfl]
        rw [countExec_append,
          countExec_executeCommand_self cfg env cs.openCommand "openCommand" hcmd]
        simp [emit, countExec_append, countExec_logInfoE, countExec_logDebugE]

end PowerLock

namespace PowerLock

/-- Witness for C2 (amended): lockDelay 5 on an unlocked command-mode
lock — no immediate change, timer armed, and after 5 seconds the fired
timer locks the state with exactly one close-command execution. -/
theorem C2_amended_delayed_transition_witness :
    (setTargetState testCfgCommandDelays testEnvOk true testUnlockedState).isLocked = !true
    ∧ delayTimerOf true (setTargetState testCfgCommandDelays testEnvOk true testUnlockedState)
        = some (testUnlockedState.now + (5 : Int).toNat)
    ∧ (run testCfgCommandDelays testEnvOk
          (setTargetState testCfgCommandDelays testEnvOk true testUnlockedState)
          [Event.advance (5 : Int).toNat, fireOf true]).isLocked = true
    ∧ countExec (run testCfgCommandDelays testEnvOk
          (setTargetState testCfgCommandDelays testEnvOk true testUnlockedState)
          [Event.advance (5 : Int).toNat, fireOf true]).effects
          (cmdOf testCommandSettings true)
        = countExec testUnlockedState.effects (cmdOf testCommandSettings true) + 1 := by
  have h := C2_amended_delayed_transition testCfgCommandDelays testEnvOk testCommandSettings
    true 5 testUnlockedState rfl rfl rfl (by decide) (by decide) rfl rfl rfl rfl rfl rfl
  exact ⟨h.1, h.2.2.1, h.2.2.2.2.2.2.1, h.2.2.2.2.2.2.2.2⟩

end PowerLock

namespace PowerLock

/-- C3 (counterexample): in the TypeScript implementation
(src/src/index.ts `setTargetState`), requesting the opposite direction
while a delay timer is pending cancels nothing: after an unlock request
(unlockDelay 3) followed by a lock request (lockDelay 5) on a locked
controller, both delay timers are armed simultaneously, and once time
passes both the open and the close command execute — both side effects
fire, not only the later request. -/
theorem C3_counterexample :
    (run testCfgCommandDelays testEnvOk testLockedState
        [Event.hostSetTarget false, Event.hostSetTarget true]).lockDelayTimeout = some 5
    ∧ (run testCfgCommandDelays testEnvOk testLockedState
        [Event.hostSetTarget false, Event.hostSetTarget true]).unlockDelayTimeout = some 3
    ∧ countExec (run testCfgCommandDelays testEnvOk testLockedState
        [Event.hostSetTarget false, Event.hostSetTarget true,
          Event.advance 5, Event.fireUnlockDelay, Event.fireLockDelay]).effects "ocmd" = 1
    ∧ countExec (run testCfgCommandDelays testEnvOk testLockedState
        [Event.hostSetTarget false, Event.hostSetTarget true,
          Event.advance 5, Event.fireUnlockDelay, Event.fireLockDelay]).effects "ccmd"
        = 1 := by
  decide

end PowerLock

namespace PowerLock.Legacy

open PowerLock

theorem lrun_cons (cfg : LegacyConfig) (env : CmdEnv) (s : LegacyState) (e : LegacyEvent)
    (rest : List LegacyEvent) :
    lrun cfg env s (e :: rest) = lrun cfg env (lstep cfg env s e) rest := rfl

theorem lrun_nil (cfg : LegacyConfig) (env : CmdEnv) (s : LegacyState) :
    lrun cfg env s [] = s := rfl

theorem lstep_advance (cfg : LegacyConfig) (env : CmdEnv) (s : LegacyState) (dt : Nat) :
    lstep cfg env s (LegacyEvent.advance dt) = { s with now := s.now + dt } := rfl

/-- A due legacy unlock-delay timer fires `doUnlock`. -/
theorem lstep_fire_unlock_due (cfg : LegacyConfig) (env : CmdEnv) (s3 : LegacyState)
    (T : Nat) (h3 : s3.unlockDelayTimeout = some T) (hT : T ≤ s3.now) :
    lstep cfg env s3 LegacyEvent.fireUnlockDelay
      = doUnlock cfg env { s3 with unlockDelayTimeout := none } := by
  show (match s3.unlockDelayTimeout with
        | some u =>
            if u ≤ s3.now then doUnlock cfg env { s3 with unlockDelayTimeout := none }
            else s3
        | none => s3) = _
  rw [h3]
  exact if_pos hT

/-- `doUnlock` always ends with both state fields UNSECURED. -/
theorem doUnlock_state (cfg : LegacyConfig) (env : CmdEnv) (s : LegacyState) :
    (doUnlock cfg env s).currentState = false
    ∧ (doUnlock cfg env s).targetState = false := by
  unfold doUnlock updateHomeKitStates lemit
  dsimp only
  repeat' split
  all_goals exact ⟨rfl, rfl⟩

/-- C3 (amended): the cancellation claimed by the spec is implemented in
the legacy accessory (src/unnamed/part_000): a delayed request runs
`clearLockUnlockDelays` before arming, so `handleTargetStateSet(false)`
with a positive unlockDelay while a lock-delay timer is pending leaves
the lock timer unset and only the unlock timer armed; from there no
trace of timer events can ever produce the superseded lock side effect
(its command execution or its close publish), and firing the armed
unlock timer drives the state to UNSECURED.  The TypeScript
implementation never cancels the opposite timer (see the
counterexample). -/
theorem C3_amended_delayed_request_supersedes (cfg : LegacyConfig) (env : CmdEnv)
    (s : LegacyState) (T : Nat)
    (hD : 0 < cfg.unlockDelay)
    (hpend : s.lockDelayTimeout = some T)
    (hauto : cfg.autoLock = false)
    (hAn : s.autoLockTimeout = none)
    (hPn : s.pollIntervalObj = none)
    (hdc : cfg.cmdUnlockCommand ≠ cfg.cmdLockCommand)
    (hdm : cfg.mqttMessageSendOpen ≠ cfg.mqttMessageSendClosed) :
    (handleTargetStateSet cfg env false s).lockDelayTimeout = none
    ∧ (handleTargetStateSet cfg env false s).unlockDelayTimeout
        = some (s.now + cfg.unlockDelay.toNat)
    ∧ (∀ l : List LegacyEvent,
        countEffect (Effect.execCmd cfg.cmdLockCommand)
            (lrun cfg env (handleTargetStateSet cfg env false s) l).effects
          = countEffect (Effect.execCmd cfg.cmdLockCommand)
              (handleTargetStateSet cfg env false s).effects
        ∧ countEffect (Effect.publish cfg.mqttTopic cfg.mqttMessageSendClosed)
            (lrun cfg env (handleTargetStateSet cfg env false s) l).effects
          = countEffect (Effect.publish cfg.mqttTopic cfg.mqttMessageSendClosed)
              (handleTargetStateSet cfg env false s).effects)
    ∧ (lrun cfg env (handleTargetStateSet cfg env false s)
        [LegacyEvent.advance cfg.unlockDelay.toNat,
          LegacyEvent.fireUnlockDelay]).currentState = false
    ∧ (lrun cfg env (handleTargetStateSet cfg env false s)
        [LegacyEvent.advance cfg.unlockDelay.toNat,
          LegacyEvent.fireUnlockDelay]).targetState = false := by
  have he : handleTargetStateSet cfg env false s
      = { s with
          targetState := false
          effects := s.effects ++ logIfE cfg "debug" "handleTargetStateSet"
          lockDelayTimeout := none
          unlockDelayTimeout := some (s.now + cfg.unlockDelay.toNat) } := by
    unfold handleTargetStateSet clearLockUnlockDelays lemit
    dsimp only
    rw [if_neg (by simp), if_pos hD]
  rw [he]
  refine ⟨rfl, rfl, ?_, ?_, ?_⟩
  · intro l
    have h := lrun_no_lock_side_effect cfg env hauto hdc hdm l
      { s with
        targetState := false
        effects := s.effects ++ logIfE cfg "debug" "handleTargetStateSet"
        lockDelayTimeout := none
        unlockDelayTimeout := some (s.now + cfg.unlockDelay.toNat) }
      rfl hAn hPn
    exact ⟨h.2.2.2.1, h.2.2.2.2⟩
  all_goals
    rw [lrun_cons, lstep_advance, lrun_cons, lrun_nil,
      lstep_fire_unlock_due cfg env _ (s.now + cfg.unlockDelay.toNat) rfl le_rfl]
  · exact (doUnlock_state cfg env _).1
  · exact (doUnlock_state cfg env _).2

end PowerLock.Legacy

namespace PowerLock.Legacy

open PowerLock

/-- Legacy command-mode configuration used by the concrete witnesses. -/
def testLegacyCfg : LegacyConfig :=
  { lockName := "L", autoLock := false, autoLockDelay := 10, lockDelay := 5,
    unlockDelay := 3, mqttTopic := "t", cmdPollInterval := 0, cmdPollCommand := "",
    cmdLockCommand := "lk", cmdUnlockCommand := "ul", logging := "normal" }

/-- A legacy state, locked, with a pending lock-delay timer due at 5. -/
def testLegacyPending : LegacyState :=
  { mode := "cmd", currentState := true, targetState := true, mqttClient := false,
    pollIntervalObj := none, autoLockTimeout := none, lockDelayTimeout := some 5,
    unlockDelayTimeout := none, now := 0, effects := [] }

/-- Witness for C3 (amended): with unlockDelay 3 and a lock-delay timer
pending, the unlock request clears the lock timer, arms the unlock
timer, no lock command fires on a later trace, and the fired unlock
timer unlocks the state. -/
theorem C3_amended_delayed_request_supersedes_witness :
    (handleTargetStateSet testLegacyCfg testEnvOk false testLegacyPending).lockDelayTimeout
        = none
    ∧ (handleTargetStateSet testLegacyCfg testEnvOk false
        testLegacyPending).unlockDelayTimeout
        = some (testLegacyPending.now + (3 : Int).toNat)
    ∧ countEffect (Effect.execCmd "lk")
        (lrun testLegacyCfg testEnvOk
          (handleTargetStateSet testLegacyCfg testEnvOk false testLegacyPending)
          [LegacyEvent.advance 10, LegacyEvent.fireLockDelay]).effects
      = countEffect (Effect.execCmd "lk")
          (handleTargetStateSet testLegacyCfg testEnvOk false testLegacyPending).effects
    ∧ (lrun testLegacyCfg testEnvOk
        (handleTargetStateSet testLegacyCfg testEnvOk false testLegacyPending)
        [LegacyEvent.advance (3 : Int).toNat,
          LegacyEvent.fireUnlockDelay]).currentState = false := by
  have h := C3_amended_delayed_request_supersedes testLegacyCfg testEnvOk
    testLegacyPending 5 (by decide) rfl rfl rfl rfl (by decide) (by decide)
  exact ⟨h.1, h.2.1, (h.2.2.1 [LegacyEvent.advance 10, LegacyEvent.fireLockDelay]).1,
    h.2.2.2.1⟩

end PowerLock.Legacy

namespace PowerLock

/-- C4 (counterexample): the claim says a second unlock restarts the
auto-lock countdown; in the code, `updateLockState(false, true)` on an
already-unlocked controller (autoLock enabled, autoLockDelay 10, a
pending auto-lock timer due at 5, now 3) takes the idempotence early
return, so the timer keeps its old deadline 5 instead of being re-armed
to 3 + 10 = 13. -/
theorem C4_counterexample :
    (updateLockState testCfgDummyAuto false true
        { testUnlockedState with autoLockTimeout := some 5, now := 3 }).autoLockTimeout
      = some 5
    ∧ ({ testUnlockedState with autoLockTimeout := some 5, now := 3 } : AccState).now
        + (autoLockDelayEff testCfgDummyAuto).toNat = 13 := by
  decide

/-- C4 (amended): with autoLock enabled, `updateLockState(false, true)`
(re)arms the auto-lock timer — replacing, hence cancelling, any pending
one — whenever the call actually changes state; a redundant second
unlock while already unlocked is a pure no-op (log line only) and does
not restart the countdown; on expiry the timer calls
`updateLockState(true, false)` directly (not `requestTargetState`), so
both fields become locked and no command is ever executed — in command
mode the lock side effect does not fire — while in mqtt mode the close
message is published. -/
theorem C4_amended_autoLock_arming (cfg : LockConfig) (env : CmdEnv) :
    (∀ s, cfg.autoLock = some true → ¬(false = s.isLocked ∧ s.targetState = false) →
        (updateLockState cfg false true s).autoLockTimeout
            = some (s.now + (autoLockDelayEff cfg).toNat)
        ∧ (updateLockState cfg false true s).isLocked = false)
    ∧ (∀ s, s.isLocked = false → s.targetState = false →
        updateLockState cfg false true s
          = emit s (logDebugE cfg ("Lock already " ++ stateWord false ++ ".")))
    ∧ (∀ s t, s.autoLockTimeout = some t → t ≤ s.now →
        (step cfg env s Event.fireAutoLock).isLocked = true
        ∧ (step cfg env s Event.fireAutoLock).targetState = true
        ∧ (∀ c, countExec (step cfg env s Event.fireAutoLock).effects c
            = countExec s.effects c)
        ∧ (∀ ms, cfg.mqttSettings = some ms → cfg.mode = "mqtt" → s.mqttClient = true →
            ms.mqttTopicPublish ≠ "" → ¬(s.isLocked = true ∧ s.targetState = true) →
            Effect.publish ms.mqttTopicPublish
                (if ms.mqttPublishCloseMessage ≠ "" then ms.mqttPublishCloseMessage
                  else "closed")
              ∈ (step cfg env s Event.fireAutoLock).effects)) := by
  refine ⟨?_, ?_, ?_⟩
  · intro s hA hch
    unfold updateLockState
    rw [if_neg hch]
    dsimp only
    rw [if_pos ⟨rfl, hA, rfl⟩]
    constructor
    · rfl
    · repeat' split
      all_goals rfl
  · intro s h1 h2
    unfold updateLockState
    rw [if_pos ⟨h1.symm, h2⟩]
  · intro s t h3 hT
    rw [step_fire_autolock_due cfg env s t h3 hT]
    unfold fireAutoLockBody
    refine ⟨(updateLockState_sets cfg true false _).1,
      (updateLockState_sets cfg true false _).2, ?_, ?_⟩
    · intro c
      rw [updateLockState_countExec]
    · intro ms hms hmq hcl htp hne
      unfold updateLockState
      rw [if_neg (fun hcon => hne ⟨hcon.1.symm, hcon.2⟩)]
      dsimp only
      rw [if_neg (show ¬(false = true ∧ cfg.autoLock = some true ∧ true = false) by simp)]
      rw [hms]
      simp [emit, hmq, hcl, htp]

/-- Witness for C4 (amended): a state-changing unlock arms the timer for
now + 10, and a due auto-lock timer locks the state when fired. -/
theorem C4_amended_autoLock_arming_witness :
    (updateLockState testCfgDummyAuto false true testLockedState).autoLockTimeout
        = some (testLockedState.now + (autoLockDelayEff testCfgDummyAuto).toNat)
    ∧ (step testCfgDummyAuto testEnvOk
        { testUnlockedState with autoLockTimeout := some 5, now := 6 }
        Event.fireAutoLock).isLocked = true := by
  have h := C4_amended_autoLock_arming testCfgDummyAuto testEnvOk
  exact ⟨(h.1 testLockedState rfl (by decide)).1,
    (h.2.2 { testUnlockedState with autoLockTimeout := some 5, now := 6 } 5 rfl
      (by decide)).1⟩

end PowerLock

namespace PowerLock.Legacy

open PowerLock

/-- `cleanup` on a controller with nothing set up (all timers unarmed,
no bus handle) is the identity — nothing to clear, nothing to emit. -/
theorem cleanup_idle (eo : Except String Unit) (X : LegacyState)
    (h1 : X.pollIntervalObj = none) (h2 : X.autoLockTimeout = none)
    (h3 : X.lockDelayTimeout = none) (h4 : X.unlockDelayTimeout = none)
    (h5 : X.mqttClient = false) : cleanup eo X = X := by
  obtain ⟨mo, cu, tg, mc, po, au, lo, un, no, ef⟩ := X
  dsimp only at h1 h2 h3 h4 h5
  subst h1 h2 h3 h4 h5
  rfl

/-- `cleanup` always leaves every timer unarmed and the handle cleared. -/
theorem cleanup_clears (eo : Except String Unit) (s : LegacyState) :
    (cleanup eo s).pollIntervalObj = none
    ∧ (cleanup eo s).autoLockTimeout = none
    ∧ (cleanup eo s).lockDelayTimeout = none
    ∧ (cleanup eo s).unlockDelayTimeout = none
    ∧ (cleanup eo s).mqttClient = false := by
  unfold cleanup lemit
  dsimp only
  split
  · cases eo <;> exact ⟨rfl, rfl, rfl, rfl, rfl⟩
  · rename_i h
    exact ⟨rfl, rfl, rfl, rfl, by simpa using h⟩

/-- C7: `cleanup` (src/unnamed/part_000 lines 187-219) is safe to call
any number of times and in any situation: it leaves all four timer
classes unarmed and the bus handle cleared; calling it again on the
result changes nothing; its outcome is independent of whether the mqtt
teardown throws (the try/catch swallows the error, so it never
propagates); on a controller where nothing was ever set up it does
nothing at all; and after a cleanup no trace of timer events can emit a
further side effect or change the lock state. -/
theorem C7_cleanup_safe (cfg : LegacyConfig) (env : CmdEnv)
    (eo eo2 : Except String Unit) (s : LegacyState) :
    ((cleanup eo s).pollIntervalObj = none
      ∧ (cleanup eo s).autoLockTimeout = none
      ∧ (cleanup eo s).lockDelayTimeout = none
      ∧ (cleanup eo s).unlockDelayTimeout = none
      ∧ (cleanup eo s).mqttClient = false)
    ∧ cleanup eo2 (cleanup eo s) = cleanup eo s
    ∧ cleanup eo s = cleanup eo2 s
    ∧ (s.pollIntervalObj = none → s.autoLockTimeout = none → s.lockDelayTimeout = none →
        s.unlockDelayTimeout = none → s.mqttClient = false → cleanup eo s = s)
    ∧ (∀ l : List LegacyEvent,
        (lrun cfg env (cleanup eo s) l).effects = (cleanup eo s).effects
        ∧ (lrun cfg env (cleanup eo s) l).currentState = (cleanup eo s).currentState
        ∧ (lrun cfg env (cleanup eo s) l).targetState = (cleanup eo s).targetState) := by
  have hc := cleanup_clears eo s
  refine ⟨hc, ?_, ?_, ?_, ?_⟩
  · exact cleanup_idle eo2 _ hc.1 hc.2.1 hc.2.2.1 hc.2.2.2.1 hc.2.2.2.2
  · unfold cleanup lemit
    dsimp only
    split
    · cases eo <;> cases eo2 <;> rfl
    · rfl
  · intro h1 h2 h3 h4 h5
    exact cleanup_idle eo s h1 h2 h3 h4 h5
  · intro l
    rw [lrun_inert cfg env l (cleanup eo s) hc.1 hc.2.1 hc.2.2.1 hc.2.2.2.1]
    exact ⟨rfl, rfl, rfl⟩

/-- A legacy controller with a live bus handle and all four timers armed. -/
def testLegacyDirty : LegacyState :=
  { mode := "mqtt", currentState := false, targetState := false, mqttClient := true,
    pollIntervalObj := some 7, autoLockTimeout := some 9, lockDelayTimeout := some 4,
    unlockDelayTimeout := some 2, now := 1, effects := [] }

/-- Witness for C7: double cleanup on a fully armed controller, with a
throwing teardown on the second call, leaves one fixed quiescent state;
a later auto-lock fire emits nothing. -/
theorem C7_cleanup_safe_witness :
    cleanup (Except.error "boom") (cleanup (Except.ok ()) testLegacyDirty)
        = cleanup (Except.ok ()) testLegacyDirty
    ∧ cleanup (Except.ok ()) testLegacyDirty
        = cleanup (Except.error "boom") testLegacyDirty
    ∧ (lrun testLegacyCfg testEnvOk (cleanup (Except.ok ()) testLegacyDirty)
        [LegacyEvent.advance 100, LegacyEvent.fireAutoLock]).effects
      = (cleanup (Except.ok ()) testLegacyDirty).effects := by
  have h := C7_cleanup_safe testLegacyCfg testEnvOk (Except.ok ())
    (Except.error "boom") testLegacyDirty
  exact ⟨h.2.1, h.2.2.1,
    (h.2.2.2.2 [LegacyEvent.advance 100, LegacyEvent.fireAutoLock]).1⟩

end PowerLock.Legacy
